import Mathlib

/- Verification of the PII-detection / data-quality pipeline.

   Shallow embedding of the three core stages found in the repository:
   the schema validator (scripts/validator.py), the cleaner / repair
   engine (scripts/clean_data.py), the PII detector (scripts/detect_pii.py)
   and the masker (scripts/mask_pii.py).

   Modelling conventions, shared by all definitions below:
   - a pandas cell is a `Cell`: a null (NaN), a string, an integer, or a
     parsed calendar date (pandas Timestamps and Python `date` objects are
     both modelled by `Cell.date`; the CSV write with
     `date_format='%Y-%m-%d'` followed by a re-read and a pydantic date
     parse is the identity on such values, so the cleaned-CSV handoff
     between stages is modelled at the value level);
   - numeric cells are modelled over the rationals: `Cell.int` holds an
     integral numeric value and `Cell.float` a rational one (`42` and
     `42.0` are normalised to `Cell.int 42`, which every use site below
     treats identically — gate, `int()` truncation, pydantic's
     integral-float acceptance, CSV round-trip);
   - the three distinct numeric conversions of the source are modelled
     separately: `pd.to_numeric(errors="coerce")` by `toNumericCell` /
     `strToNumeric` (parses decimal fractions such as "3.7"), Python
     `int()` by `pyIntOfCell` (truncates floats toward zero, accepts only
     integer-literal strings), and pydantic's lax `int` coercion by
     `pyIntCoerce` (accepts ints, integral floats and integer-literal
     strings, rejects fractional floats); exotic spellings (signs with
     `+`, exponents, fractional strings fed directly to pydantic) are
     outside the modelled scope;
   - `pd.to_datetime(errors="coerce")` and pydantic's date parsing are
     modelled by `parseDateStr`, strict `YYYY-MM-DD` (other calendar
     formats are outside the modelled scope; integer epoch timestamps are
     treated as unparseable);
   - Python `str.strip` is `pyStrip`, `str.title` is `pyTitle`,
     `str.split()` is `pySplitWS`, `str.split(sep)` is `splitAll`,
     `str.split(sep, 1)` is `splitFirst`;
   - pandas' `astype(str)` conversion of an all-null object column to the
     string "nan" is not replayed during the trim step: the code treats a
     null cell and the string "nan" identically in every later missing
     check, so the two representations are interchangeable downstream.  -/

/-- A calendar date as carried by a pandas Timestamp / Python date. -/
structure Date where
  year : Nat
  month : Nat
  day : Nat
deriving DecidableEq, Repr

/-- One pandas cell: NaN, a string, an integral number, a non-integral
(float) number, or a parsed date.  Floats are modelled by rationals: the
pipeline's own numeric parser only ever produces denominators that are
powers of ten, and none of the claims depend on binary rounding. -/
inductive Cell where
  | null : Cell
  | str : String → Cell
  | int : Int → Cell
  | float : Rat → Cell
  | date : Date → Cell
deriving DecidableEq, Repr

/-- One row of the nine-column customer table plus its primary key cell,
in the column order of the `Customer` pydantic model. -/
structure RawRow where
  customer_id : Cell
  first_name : Cell
  last_name : Cell
  email : Cell
  phone : Cell
  date_of_birth : Cell
  address : Cell
  income : Cell
  account_status : Cell
  created_date : Cell
deriving DecidableEq, Repr

/-- The all-null row, used as the `getD` default when indexing tables. -/
def emptyRow : RawRow :=
  ⟨Cell.null, Cell.null, Cell.null, Cell.null, Cell.null,
   Cell.null, Cell.null, Cell.null, Cell.null, Cell.null⟩

/-- Digit run to a natural number, most significant digit first. -/
def digitsToNat (ds : List Char) : Nat :=
  ds.foldl (fun acc c => acc * 10 + (c.toNat - '0'.toNat)) 0

/-- Model of Python `int()` on a string (also of pydantic's lax `int`
from a string): optional leading minus sign followed by one or more
digits; a decimal point raises (`int("3.7")` is a ValueError). -/
def strToInt (s : String) : Option Int :=
  match s.data with
  | [] => none
  | '-' :: ds =>
    if !ds.isEmpty && ds.all Char.isDigit then some (-(Int.ofNat (digitsToNat ds))) else none
  | ds =>
    if ds.all Char.isDigit then some (Int.ofNat (digitsToNat ds)) else none

/-- Python `int()` truncation of a float: rounding toward zero
(`int(3.7) = 3`, `int(-3.7) = -3`). -/
def ratTrunc (q : Rat) : Int :=
  Int.tdiv q.num (q.den : Int)

/-- The cell holding a parsed numeric value: integral values are stored
as `Cell.int`, fractional ones as `Cell.float` (the two storages behave
identically at every use site for integral values). -/
def numCell (q : Rat) : Cell :=
  if q.den = 1 then Cell.int q.num else Cell.float q

/-- True when the numeric id cell holds an integer-valued number (an
`int` cell or an integral float). -/
def isIntegralNumCell : Cell → Bool
  | Cell.int _ => true
  | Cell.float q => q.den = 1
  | _ => false

/-- Strict `YYYY-MM-DD` date parsing (model of `pd.to_datetime` and of
pydantic's date parsing on the formats this pipeline produces). -/
def parseDateStr (s : String) : Option Date :=
  match s.data with
  | [y1, y2, y3, y4, '-', m1, m2, '-', d1, d2] =>
    if ([y1, y2, y3, y4, m1, m2, d1, d2].all Char.isDigit) then
      let y := digitsToNat [y1, y2, y3, y4]
      let m := digitsToNat [m1, m2]
      let d := digitsToNat [d1, d2]
      if 1 ≤ m ∧ m ≤ 12 ∧ 1 ≤ d ∧ d ≤ 31 then some ⟨y, m, d⟩ else none
    else none
  | _ => none

/-- Left-pad the decimal representation of `n` with zeros to width `w`. -/
def padZeros (w : Nat) (n : Nat) : String :=
  let s := toString n
  String.mk (List.replicate (w - s.length) '0') ++ s

/-- `YYYY-MM-DD` rendering of a date (as written by `to_csv` with
`date_format='%Y-%m-%d'`, and as produced by `str()` up to the midnight
time suffix, which no digit- or prefix-based check below distinguishes). -/
def formatDate (d : Date) : String :=
  padZeros 4 d.year ++ "-" ++ padZeros 2 d.month ++ "-" ++ padZeros 2 d.day

/-- Python `str()` of a float value, for the rationals the pipeline's own
parser produces (denominator a power of ten): a signed decimal with at
least one fractional digit. Other denominators (never produced by the
pipeline) fall back to a fraction rendering, outside the modelled scope
of `str()`. -/
def floatPyStr (q : Rat) : String :=
  match (List.range 28).find? (fun k => q.den ∣ 10 ^ k) with
  | some k =>
    let m := (Int.tdiv (q.num * ((10 : Int) ^ k)) (q.den : Int)).natAbs
    (if q.num < 0 then "-" else "") ++ toString (m / 10 ^ k) ++ "." ++
      (if k = 0 then "0" else padZeros k (m % 10 ^ k))
  | none => toString q.num ++ "/" ++ toString q.den

/-- Python `str()` of a non-null cell value. -/
def cellPyStr : Cell → String
  | Cell.null => "nan"
  | Cell.str s => s
  | Cell.int i => toString i
  | Cell.float q => floatPyStr q
  | Cell.date d => formatDate d

/-- Python truthiness test `not value` for a cell value. -/
def pyFalsy : Cell → Bool
  | Cell.null => true
  | Cell.str s => s = ""
  | Cell.int i => i = 0
  | Cell.float q => q = 0
  | Cell.date _ => false

/-- Characters stripped from both ends, on the character list. -/
def stripChars (l : List Char) : List Char :=
  (l.dropWhile Char.isWhitespace).rdropWhile Char.isWhitespace

/-- Model of Python `str.strip()`. -/
def pyStrip (s : String) : String :=
  String.mk (stripChars s.data)

/-- Python `str.lower()` (ASCII case mapping, matching the data in scope). -/
def pyLower (s : String) : String :=
  String.mk (s.data.map Char.toLower)

/-- Helper for `pyTitle`: `prevCased` records whether the previous
character was alphabetic. -/
def pyTitleAux : Bool → List Char → List Char
  | _, [] => []
  | prevCased, c :: cs =>
    let c' := if c.isAlpha then (if prevCased then c.toLower else c.toUpper) else c
    c' :: pyTitleAux c.isAlpha cs

/-- Model of Python `str.title()`: the first letter of every alphabetic
run is uppercased and the following letters are lowercased. -/
def pyTitle (s : String) : String :=
  String.mk (pyTitleAux false s.data)

/-- Model of Python `s.split(sep, 1)`: the part before the first `sep`
and the part after it, or `none` when `sep` does not occur. -/
def splitFirst (sep : Char) : List Char → Option (List Char × List Char)
  | [] => none
  | c :: cs =>
    if c = sep then some ([], cs)
    else (splitFirst sep cs).map (fun p => (c :: p.1, p.2))

/-- Helper for `splitAll`, accumulating the current chunk in reverse. -/
def splitAllAux (sep : Char) : List Char → List Char → List (List Char)
  | acc, [] => [acc.reverse]
  | acc, c :: cs =>
    if c = sep then acc.reverse :: splitAllAux sep [] cs
    else splitAllAux sep (c :: acc) cs

/-- Model of Python `s.split(sep)`: split at every separator, keeping
empty chunks (`"".split("-") == [""]`). -/
def splitAll (sep : Char) (l : List Char) : List (List Char) :=
  splitAllAux sep [] l

/-- Unsigned decimal parsing: one or more digits, optionally followed by
a point and further digits ("42", "3.7", "5."). -/
def parseDecimal (l : List Char) : Option Rat :=
  match splitFirst '.' l with
  | none =>
    if !l.isEmpty && l.all Char.isDigit then some ((digitsToNat l : Int) : Rat) else none
  | some (ip, fp) =>
    if !ip.isEmpty && ip.all Char.isDigit && fp.all Char.isDigit then
      some (mkRat (Int.ofNat (digitsToNat ip * 10 ^ fp.length + digitsToNat fp))
        (10 ^ fp.length))
    else none

/-- Model of `pd.to_numeric` string parsing: signed decimal numbers,
fractional values included ("3.7" parses to 37/10). -/
def strToNumeric (s : String) : Option Rat :=
  match s.data with
  | '-' :: rest => (parseDecimal rest).map (fun q => -q)
  | l => parseDecimal l

/-- Model of Python `s.split()` (no argument): split on whitespace runs,
dropping empty chunks. -/
def pySplitWS : List Char → List (List Char)
  | [] => []
  | c :: cs =>
    if c.isWhitespace then pySplitWS cs
    else
      (c :: cs.takeWhile (fun ch => !ch.isWhitespace)) ::
        pySplitWS (cs.dropWhile (fun ch => !ch.isWhitespace))
termination_by l => l.length
decreasing_by
  all_goals simp_wf
  all_goals exact Nat.lt_succ_of_le (List.dropWhile_suffix _).sublist.length_le

/-- pydantic lax coercion of a cell to `int`: an `int` cell passes, a
float is accepted only when it has no fractional part (pydantic v2
rejects e.g. `3.7` for an int field), an integer-literal string is
parsed, anything else is a type error. -/
def pyIntCoerce : Cell → Option Int
  | Cell.int i => some i
  | Cell.float q => if q.den = 1 then some q.num else none
  | Cell.str s => strToInt s
  | _ => none

/-- Python `int(x)` on a cell value: ints pass, floats truncate toward
zero, integer-literal strings parse; `None`, dates and non-integer
strings raise (modelled as `none`, caught by the cleaner's
`except (ValueError, TypeError)`). -/
def pyIntOfCell : Cell → Option Int
  | Cell.int i => some i
  | Cell.float q => some (ratTrunc q)
  | Cell.str s => strToInt s
  | _ => none

/-- pydantic coercion of a cell to `str` (pydantic v2 does not coerce
numbers to strings). -/
def pyStrCoerce : Cell → Option String
  | Cell.str s => some s
  | _ => none

/-- pydantic lax coercion of a cell to `float`, which coincides with
Python `float(x)`: ints and floats pass, numeric strings (fractional
included) parse. -/
def pyFloatCoerce : Cell → Option Rat
  | Cell.int i => some (i : Rat)
  | Cell.float q => some q
  | Cell.str s => strToNumeric s
  | _ => none

/-- pydantic coercion of a cell to `date`: a parsed date passes through,
a string is parsed as `YYYY-MM-DD`. -/
def pyDateCoerce : Cell → Option Date
  | Cell.date d => some d
  | Cell.str s => parseDateStr s
  | _ => none

/-- The validated customer record, mirroring the pydantic `Customer`
model of `scripts/validator.py` field for field. -/
structure Customer where
  customer_id : Int
  first_name : String
  last_name : String
  email : String
  phone : String
  date_of_birth : Date
  address : String
  income : Rat
  account_status : String
  created_date : Date
deriving DecidableEq, Repr

/-- `^[A-Za-z]{2,50}$` of the `name_rules` validator. -/
def isAlphaName (s : String) : Bool :=
  decide (2 ≤ s.length) && decide (s.length ≤ 50) && s.data.all Char.isAlpha

/-- Model of pydantic `EmailStr`: a non-empty whitespace-free local part,
a single `@`, and a domain containing a dot (the spec's "single-`@`,
dotted-domain shape"; the full RFC grammar of the third-party
email-validator library is abstracted to this shape). -/
def isEmailShape (s : String) : Bool :=
  match splitFirst '@' s.data with
  | none => false
  | some (l, d) =>
    !l.isEmpty && !(d.contains '@') && d.contains '.' && !d.isEmpty &&
      s.data.all (fun ch => !ch.isWhitespace)

/-- Field check for `customer_id`: int coercion plus `id_must_be_positive`. -/
def vCustomerId (c : Cell) : Except (String × String) Int :=
  match pyIntCoerce c with
  | none => Except.error ("customer_id", "value is not a valid integer")
  | some v =>
    if v ≤ 0 then Except.error ("customer_id", "customer_id must be positive")
    else Except.ok v

/-- Field check for `first_name` / `last_name`: str type plus `name_rules`. -/
def vName (fld : String) (c : Cell) : Except (String × String) String :=
  match pyStrCoerce c with
  | none => Except.error (fld, "value is not a valid string")
  | some s =>
    if s = "" then Except.error (fld, "Name cannot be empty")
    else if isAlphaName s then Except.ok s
    else Except.error (fld, "Name must be 2-50 alphabetic characters")

/-- Field check for `email`: the `EmailStr` shape. -/
def vEmail (c : Cell) : Except (String × String) String :=
  match pyStrCoerce c with
  | none => Except.error ("email", "value is not a valid string")
  | some s =>
    if isEmailShape s then Except.ok s
    else Except.error ("email", "value is not a valid email address")

/-- Field check for `phone`: str type plus `phone_length` (7 to 20). -/
def vPhone (c : Cell) : Except (String × String) String :=
  match pyStrCoerce c with
  | none => Except.error ("phone", "value is not a valid string")
  | some s =>
    if s.length < 7 || 20 < s.length then Except.error ("phone", "Phone length invalid")
    else Except.ok s

/-- Field check for the two date fields: date coercion. -/
def vDate (fld : String) (c : Cell) : Except (String × String) Date :=
  match pyDateCoerce c with
  | none => Except.error (fld, "value is not a valid date")
  | some d => Except.ok d

/-- Field check for `address`: str type plus `address_rules` (10 to 200,
non-empty). -/
def vAddress (c : Cell) : Except (String × String) String :=
  match pyStrCoerce c with
  | none => Except.error ("address", "value is not a valid string")
  | some s =>
    if s = "" || s.length < 10 || 200 < s.length then
      Except.error ("address", "Address must be 10-200 characters")
    else Except.ok s

/-- Field check for `income`: float coercion plus `income_rules`. -/
def vIncome (c : Cell) : Except (String × String) Rat :=
  match pyFloatCoerce c with
  | none => Except.error ("income", "value is not a valid number")
  | some v =>
    if v < 0 then Except.error ("income", "Income cannot be negative")
    else if 10000000 < v then Except.error ("income", "Income exceeds limit")
    else Except.ok v

/-- Field check for `account_status`: the three-value `Literal`. -/
def vStatus (c : Cell) : Except (String × String) String :=
  match pyStrCoerce c with
  | none => Except.error ("account_status", "value is not a valid string")
  | some s =>
    if s = "active" || s = "inactive" || s = "suspended" then Except.ok s
    else Except.error ("account_status", "input must be active, inactive or suspended")

/-- `Customer(**row_dict)`: every field is checked in pydantic declaration
order; a failure reports the first failing field (the code reads
`e.errors()[0]["loc"][0]`) together with its message. -/
def validateCustomerCells (r : RawRow) : Except (String × String) Customer :=
  (vCustomerId r.customer_id).bind fun cid =>
  (vName "first_name" r.first_name).bind fun fn =>
  (vName "last_name" r.last_name).bind fun ln =>
  (vEmail r.email).bind fun em =>
  (vPhone r.phone).bind fun ph =>
  (vDate "date_of_birth" r.date_of_birth).bind fun dob =>
  (vAddress r.address).bind fun ad =>
  (vIncome r.income).bind fun inc =>
  (vStatus r.account_status).bind fun st =>
  (vDate "created_date" r.created_date).bind fun cd =>
  Except.ok ⟨cid, fn, ln, em, ph, dob, ad, inc, st, cd⟩

/-- The type-conversion prelude of the cleaner's re-validation loop
(clean_data.py lines 167-181): `int(row_dict["customer_id"])` truncates a
float id toward zero, `float(row_dict["income"])` keeps the value, and
the Timestamp-to-date conversions are the identity at this model's value
level.  A raised ValueError/TypeError is the error branch.  The ACCEPTED
row appended to the output is the original row, not this converted copy
— only the copy is validated. -/
def revalidationCoerce (r : RawRow) : Except String RawRow :=
  match pyIntOfCell r.customer_id with
  | none => Except.error "invalid literal for int conversion"
  | some i =>
    match pyFloatCoerce r.income with
    | none => Except.error "could not convert value to float"
    | some v =>
      Except.ok { r with customer_id := Cell.int i, income := Cell.float v }

/-- `True` exactly when the re-validation accepts the row: the type
conversions succeed and the converted copy passes the pydantic model. -/
def isAccepted (r : RawRow) : Bool :=
  match revalidationCoerce r with
  | Except.error _ => false
  | Except.ok r2 =>
    match validateCustomerCells r2 with
    | Except.ok _ => true
    | Except.error _ => false

/-- One entry of the validator's `failed_rows` list. -/
structure FailRec where
  row_index : Nat
  customer_id : Cell
  column : String
  error : String
deriving DecidableEq, Repr

/-- `str.strip()` applied to a string cell (the per-cell effect of the
object-column trim loop shared by validator and cleaner). -/
def trimCell : Cell → Cell
  | Cell.str s => Cell.str (pyStrip s)
  | c => c

/-- The trim step applied to every cell of a row. -/
def trimRow (r : RawRow) : RawRow :=
  ⟨trimCell r.customer_id, trimCell r.first_name, trimCell r.last_name,
   trimCell r.email, trimCell r.phone, trimCell r.date_of_birth,
   trimCell r.address, trimCell r.income, trimCell r.account_status,
   trimCell r.created_date⟩

/-- The validator's row loop: `seen` is the set of already-seen
`customer_id` cells, `i` the index of the next row.  A repeated id raises
`ValueError("Duplicate customer_id")` before any field rule runs (the
plain `ValueError` has no `errors()` attribute, hence column "unknown");
otherwise the id is recorded and the pydantic model is evaluated, so ids
of rows that fail field validation are still recorded as seen. -/
def validateRowsAux : List Cell → Nat → List RawRow → List FailRec
  | _, _, [] => []
  | seen, i, r :: rs =>
    if r.customer_id ∈ seen then
      ⟨i, r.customer_id, "unknown", "Duplicate customer_id"⟩ :: validateRowsAux seen (i + 1) rs
    else
      match validateCustomerCells r with
      | Except.ok _ => validateRowsAux (r.customer_id :: seen) (i + 1) rs
      | Except.error e =>
        ⟨i, r.customer_id, e.1, e.2⟩ :: validateRowsAux (r.customer_id :: seen) (i + 1) rs

/-- The structured result of `validate_dataset`. -/
structure ValidationResult where
  total_rows : Nat
  passed_count : Nat
  failed_count : Nat
  failed_rows : List FailRec
  passed : Bool
deriving DecidableEq, Repr

/-- `validate_dataset` of `scripts/validator.py`: trim, iterate rows in
order with the seen-id set, aggregate the table verdict (`passed` iff
zero failed rows).  Reading the CSV is modelled by receiving the table. -/
def validate_dataset (rows : List RawRow) : ValidationResult :=
  let rows' := rows.map trimRow
  let failed := validateRowsAux [] 0 rows'
  { total_rows := rows'.length
    passed_count := rows'.length - failed.length
    failed_count := failed.length
    failed_rows := failed
    passed := failed.isEmpty }

/-- The row of the (trimmed) table at index `i`, as the validator sees it. -/
def vRowAt (rows : List RawRow) (i : Nat) : RawRow :=
  (rows.map trimRow).getD i emptyRow

/-- `normalize_phone` of `scripts/clean_data.py`: null stays null, all
non-digits of `str(phone)` are stripped, exactly ten digits are regrouped
as `DDD-DDD-DDDD`, any other digit count becomes null. -/
def normalize_phone (c : Cell) : Cell :=
  if c = Cell.null then Cell.null
  else
    let digits := (cellPyStr c).data.filter Char.isDigit
    if digits.length = 10 then
      Cell.str (String.mk (digits.take 3 ++ '-' :: ((digits.drop 3).take 3) ++ '-' :: digits.drop 6))
    else Cell.null

/-- `replace(["", "nan"], ph)` followed by `fillna(ph)` on a text column. -/
def fillStr (ph : String) : Cell → Cell
  | Cell.null => Cell.str ph
  | Cell.str s => if s = "" || s = "nan" then Cell.str ph else Cell.str s
  | c => c

/-- `fillna` with a date placeholder. -/
def fillDate (ph : Date) : Cell → Cell
  | Cell.null => Cell.date ph
  | c => c

/-- `fillna(0.0)` on the numeric-coerced income column. -/
def fillIncome : Cell → Cell
  | Cell.null => Cell.int 0
  | c => c

/-- `pd.to_numeric(errors="coerce")` on one cell. -/
def toNumericCell : Cell → Cell
  | Cell.int i => Cell.int i
  | Cell.float q => Cell.float q
  | Cell.str s =>
    match strToNumeric s with
    | some q => numCell q
    | none => Cell.null
  | _ => Cell.null

/-- `pd.to_datetime(errors="coerce")` on one cell. -/
def toDatetimeCell : Cell → Cell
  | Cell.date d => Cell.date d
  | Cell.str s =>
    match parseDateStr s with
    | some d => Cell.date d
    | none => Cell.null
  | _ => Cell.null

/-- Name normalization: every non-"Unknown" name is lower-cased then
title-cased via the pandas `.str` accessor, which maps a non-string cell
to null. -/
def titleCaseCell : Cell → Cell
  | Cell.str s => if s = "Unknown" then Cell.str s else Cell.str (pyTitle (pyLower s))
  | _ => Cell.null

/-- The phone column transform: normalization followed by the phone FILL. -/
def cleanPhoneCell (c : Cell) : Cell :=
  match normalize_phone c with
  | Cell.null => Cell.str "000-000-0000"
  | c' => c'

/-- The delete-gate presence test on the raw `customer_id` cell:
`notna & != "" & != "nan"`. -/
def idPresent (r : RawRow) : Bool :=
  r.customer_id ≠ Cell.null && r.customer_id ≠ Cell.str "" && r.customer_id ≠ Cell.str "nan"

/-- The numeric-coercion step `to_numeric` on `customer_id` and `income`. -/
def toNumericRow (r : RawRow) : RawRow :=
  { r with customer_id := toNumericCell r.customer_id, income := toNumericCell r.income }

/-- Rows surviving the cleaner's delete gate, paired with their original
row index: trim, drop rows with a missing `customer_id`, coerce
`customer_id` and `income` to numeric, drop rows whose id coercion
failed. -/
def gateRows (rows : List RawRow) : List (Nat × RawRow) :=
  ((((rows.map trimRow).enum.filter (fun p => idPresent p.2)).map
      (fun p => (p.1, toNumericRow p.2))).filter
    (fun p => p.2.customer_id ≠ Cell.null))

/-- Steps 3-8 of the cleaner on one gated row: the FILL policies, name
title-casing, phone normalization and the date/income coercions, in
source order. -/
def repairRow (now : Date) (r : RawRow) : RawRow :=
  { customer_id := r.customer_id
    first_name := titleCaseCell (fillStr "Unknown" r.first_name)
    last_name := titleCaseCell (fillStr "Unknown" r.last_name)
    email := fillStr "noemail@placeholder.com" r.email
    phone := cleanPhoneCell r.phone
    date_of_birth := fillDate ⟨1900, 1, 1⟩ (toDatetimeCell r.date_of_birth)
    address := fillStr "Address Not Provided" r.address
    income := fillIncome r.income
    account_status := fillStr "inactive" r.account_status
    created_date := fillDate now (toDatetimeCell r.created_date) }

/-- The repaired rows, still paired with their original index. -/
def repairedPairs (now : Date) (rows : List RawRow) : List (Nat × RawRow) :=
  (gateRows rows).map (fun p => (p.1, repairRow now p.2))

/-- Repaired rows accepted by the re-validation pass. -/
def acceptedPairs (now : Date) (rows : List RawRow) : List (Nat × RawRow) :=
  (repairedPairs now rows).filter (fun p => isAccepted p.2)

/-- One entry of the cleaner's flagged-rows ledger. -/
structure FlaggedRec where
  row_index : Nat
  customer_id : Cell
  error : String
deriving DecidableEq, Repr

/-- The error text recorded for a flagged row (the pydantic message of
the first failing field; its exact rendering is abstracted). -/
def flagError (r : RawRow) : String :=
  match revalidationCoerce r with
  | Except.error e => e
  | Except.ok r2 =>
    match validateCustomerCells r2 with
    | Except.error e => e.1 ++ ": " ++ e.2
    | Except.ok _ => ""

/-- The flagged-rows ledger: gated rows rejected by re-validation. -/
def flaggedRecs (now : Date) (rows : List RawRow) : List FlaggedRec :=
  ((repairedPairs now rows).filter (fun p => !isAccepted p.2)).map
    (fun p => ⟨p.1, p.2.customer_id, flagError p.2⟩)

/-- The cleaned table written to the output CSV. -/
def cleanedTable (now : Date) (rows : List RawRow) : List RawRow :=
  (acceptedPairs now rows).map (fun p => p.2)

/-- The cleaner's structured result record. -/
structure CleanResult where
  initial_count : Nat
  deleted_count : Nat
  cleaned_count : Nat
  flagged_count : Nat
  flagged_rows : List FlaggedRec
deriving DecidableEq, Repr

/-- `clean_dataset` of `scripts/clean_data.py`.  `now` is the current
processing date used by the `created_date` FILL.  `deleted_count` is
computed as `initial_count - len(df)` with `df` taken after the delete
gate and before re-validation, exactly as in the source.  When zero rows
survive re-validation the function raises `ValueError("All rows failed
validation")` before the output write, so the error branch carries no
cleaned table; on success the written table and the result record are
returned. -/
def clean_dataset (now : Date) (rows : List RawRow) :
    Except String (List RawRow × CleanResult) :=
  if (cleanedTable now rows).length = 0 then
    Except.error "All rows failed validation"
  else
    Except.ok (cleanedTable now rows,
      { initial_count := rows.length
        deleted_count := rows.length - (gateRows rows).length
        cleaned_count := (cleanedTable now rows).length
        flagged_count := (flaggedRecs now rows).length
        flagged_rows := flaggedRecs now rows })

/-- `EMAIL_REGEX = ^[^@\s]+@[^@\s]+\.[^@\s]+$` of `scripts/detect_pii.py`:
a non-empty `@`-free whitespace-free local part, one `@`, and a remainder
that is `@`-free, whitespace-free and contains an inner dot. -/
def emailRegexMatch (s : String) : Bool :=
  match splitFirst '@' s.data with
  | none => false
  | some (l, d) =>
    !l.isEmpty && l.all (fun ch => !ch.isWhitespace) &&
      !(d.contains '@') && d.all (fun ch => !ch.isWhitespace) &&
      ((d.drop 1).dropLast.contains '.')

/-- `PHONE_REGEX = ^\+?[\d\s().-]{7,20}$` of `scripts/detect_pii.py`. -/
def phoneRegexMatch (s : String) : Bool :=
  let body := match s.data with
    | '+' :: rest => rest
    | l => l
  decide (7 ≤ body.length) && decide (body.length ≤ 20) &&
    body.all (fun ch => ch.isDigit || ch.isWhitespace || ch = '(' || ch = ')' ||
      ch = '.' || ch = '-')

/-- The per-category counts of `detect_pii`'s `summary` map. -/
structure PiiSummary where
  emails_found : Nat
  phones_found : Nat
  full_identity_found : Nat
  addresses_found : Nat
  dob_found : Nat
deriving DecidableEq, Repr

/-- `detect_pii` of `scripts/detect_pii.py` on a table with all nine
columns present: the regex categories run on `astype(str)` of the cell
(null becomes "nan"), while addresses and dates of birth are counted by
presence (`notna`) alone. -/
def detect_pii (rows : List RawRow) : PiiSummary :=
  { emails_found := (rows.filter (fun r => emailRegexMatch (cellPyStr r.email))).length
    phones_found := (rows.filter (fun r => phoneRegexMatch (cellPyStr r.phone))).length
    full_identity_found := (rows.filter (fun r =>
      r.first_name ≠ Cell.null && r.last_name ≠ Cell.null &&
        emailRegexMatch (cellPyStr r.email))).length
    addresses_found := (rows.filter (fun r => r.address ≠ Cell.null)).length
    dob_found := (rows.filter (fun r => r.date_of_birth ≠ Cell.null)).length }

/-- Token masking of `mask_name`: `part[0] + "***"`. -/
def maskToken (t : List Char) : List Char :=
  match t with
  | [] => []
  | c :: _ => [c, '*', '*', '*']

/-- Python `" ".join(...)` on character lists. -/
def joinSpace : List (List Char) → List Char
  | [] => []
  | [t] => t
  | t :: ts => t ++ ' ' :: joinSpace ts

/-- The string body of `mask_name`: split on whitespace, mask every
non-empty token, join with single spaces. -/
def maskNameChars (s : String) : String :=
  String.mk (joinSpace
    (((pySplitWS s.data).filter (fun t => !t.isEmpty)).map maskToken))

/-- `mask_name` of `scripts/mask_pii.py`: null, falsy values and the
"Unknown" placeholder pass through, otherwise each whitespace-separated
token of `str(name)` keeps its first character. -/
def mask_name (c : Cell) : Cell :=
  match c with
  | Cell.null => Cell.null
  | c =>
    if pyFalsy c || c = Cell.str "Unknown" then c
    else Cell.str (maskNameChars (cellPyStr c))

/-- The string body of `mask_email`: split at the first `@`, keep the
first character of a non-empty local part, keep the domain. -/
def maskEmailChars (s : String) : String :=
  match splitFirst '@' s.data with
  | some (l, d) =>
    match l with
    | lc :: _ => String.mk (lc :: '*' :: '*' :: '*' :: '@' :: d)
    | [] => s
  | none => s

/-- `mask_email` of `scripts/mask_pii.py`. -/
def mask_email (c : Cell) : Cell :=
  match c with
  | Cell.null => Cell.null
  | c =>
    if pyFalsy c || c = Cell.str "noemail@placeholder.com" then c
    else Cell.str (maskEmailChars (cellPyStr c))

/-- `re.match(r'\d{3}-\d{3}-\d{4}', s)`: an unanchored-tail PREFIX match,
true whenever the first twelve characters have the `DDD-DDD-DDDD` shape,
whatever follows. -/
def phonePatMatch : List Char → Bool
  | d1 :: d2 :: d3 :: '-' :: d4 :: d5 :: d6 :: '-' :: d7 :: d8 :: d9 :: d10 :: _ =>
    d1.isDigit && d2.isDigit && d3.isDigit && d4.isDigit && d5.isDigit &&
      d6.isDigit && d7.isDigit && d8.isDigit && d9.isDigit && d10.isDigit
  | _ => false

/-- The string body of `mask_phone`: on a prefix match, `***-***-` plus
`parts[2]` of the full dash-split. -/
def maskPhoneChars (s : String) : String :=
  if phonePatMatch s.data then
    String.mk ('*' :: '*' :: '*' :: '-' :: '*' :: '*' :: '*' :: '-' ::
      (splitAll '-' s.data).getD 2 [])
  else s

/-- `mask_phone` of `scripts/mask_pii.py`. -/
def mask_phone (c : Cell) : Cell :=
  match c with
  | Cell.null => Cell.null
  | c =>
    if pyFalsy c || c = Cell.str "000-000-0000" then c
    else Cell.str (maskPhoneChars (cellPyStr c))

/-- `mask_address` of `scripts/mask_pii.py`. -/
def mask_address (c : Cell) : Cell :=
  match c with
  | Cell.null => Cell.null
  | c =>
    if pyFalsy c || c = Cell.str "Address Not Provided" then c
    else Cell.str "[MASKED ADDRESS]"

/-- `re.match(r'\d{4}-\d{2}-\d{2}', s)`: again a prefix match. -/
def dobPatMatch : List Char → Bool
  | y1 :: y2 :: y3 :: y4 :: '-' :: m1 :: m2 :: '-' :: n1 :: n2 :: _ =>
    y1.isDigit && y2.isDigit && y3.isDigit && y4.isDigit && m1.isDigit &&
      m2.isDigit && n1.isDigit && n2.isDigit
  | _ => false

/-- The string body of `mask_dob`: keep the first four characters (the
year), mask month and day. -/
def maskDobChars (s : String) : String :=
  if dobPatMatch s.data then
    String.mk (s.data.take 4 ++ '-' :: '*' :: '*' :: '-' :: '*' :: '*' :: [])
  else s

/-- `mask_dob` of `scripts/mask_pii.py`: only null passes through
unconditionally. -/
def mask_dob (c : Cell) : Cell :=
  match c with
  | Cell.null => Cell.null
  | c => Cell.str (maskDobChars (cellPyStr c))

/-- The per-row masking of `mask_dataset` (all six PII columns). -/
def maskRow (r : RawRow) : RawRow :=
  { r with first_name := mask_name r.first_name
           last_name := mask_name r.last_name
           email := mask_email r.email
           phone := mask_phone r.phone
           address := mask_address r.address
           date_of_birth := mask_dob r.date_of_birth }

/-- The "in normalized `DDD-DDD-DDDD` form" predicate, written from the
spec's words (section 4.4) for comparison with the code's prefix-based
`phonePatMatch`: the WHOLE value is exactly three digits, a dash, three
digits, a dash, four digits. -/
def specNormalizedPhone (s : String) : Bool :=
  match s.data with
  | [d1, d2, d3, '-', d4, d5, d6, '-', d7, d8, d9, d10] =>
    d1.isDigit && d2.isDigit && d3.isDigit && d4.isDigit && d5.isDigit &&
      d6.isDigit && d7.isDigit && d8.isDigit && d9.isDigit && d10.isDigit
  | _ => false

theorem stripChars_idem (l : List Char) : stripChars (stripChars l) = stripChars l := by
  unfold stripChars
  have h1 : List.dropWhile Char.isWhitespace
      ((l.dropWhile Char.isWhitespace).rdropWhile Char.isWhitespace) =
      (l.dropWhile Char.isWhitespace).rdropWhile Char.isWhitespace := by
    obtain ⟨t, ht⟩ :=
      List.rdropWhile_prefix Char.isWhitespace (l.dropWhile Char.isWhitespace)
    cases hr : (l.dropWhile Char.isWhitespace).rdropWhile Char.isWhitespace with
    | nil => simp
    | cons a rs =>
      rw [hr] at ht
      have ht' : List.dropWhile Char.isWhitespace l = a :: (rs ++ t) := by
        rw [← ht]
        simp
      have ha : ¬ a.isWhitespace = true := by
        intro hc
        have h2 : List.dropWhile Char.isWhitespace (List.dropWhile Char.isWhitespace l) =
            List.dropWhile Char.isWhitespace l := List.dropWhile_idempotent _ _
        rw [ht', List.dropWhile_cons_of_pos hc] at h2
        have h3 := congrArg List.length h2
        have hle :=
          (List.dropWhile_suffix (l := rs ++ t) Char.isWhitespace).sublist.length_le
        simp [List.length_append] at h3 hle
        omega
      rw [List.dropWhile_cons_of_neg ha]
  rw [h1, List.rdropWhile_idempotent]

theorem pyStrip_idem (s : String) : pyStrip (pyStrip s) = pyStrip s := by
  show String.mk (stripChars (stripChars s.data)) = String.mk (stripChars s.data)
  rw [stripChars_idem]

theorem stripChars_eq_self {l : List Char} (h : ∀ c ∈ l, c.isWhitespace = false) :
    stripChars l = l := by
  unfold stripChars
  have h1 : l.dropWhile Char.isWhitespace = l := by
    rw [List.dropWhile_eq_self_iff]
    intro hl
    simp only [List.get_eq_getElem]
    simp [h _ (List.getElem_mem hl)]
  rw [h1, List.rdropWhile_eq_self_iff]
  intro hl
  simp [h _ (List.getLast_mem hl)]

theorem pyStrip_eq_self {s : String} (h : ∀ c ∈ s.data, c.isWhitespace = false) :
    pyStrip s = s := by
  show String.mk (stripChars s.data) = s
  rw [stripChars_eq_self h]

theorem isAlpha_not_ws {c : Char} (h : c.isAlpha = true) : c.isWhitespace = false := by
  cases hw : c.isWhitespace with
  | false => rfl
  | true =>
    exfalso
    have hc : c = ' ' ∨ c = '\t' ∨ c = '\r' ∨ c = '\n' := by
      simpa [Char.isWhitespace, or_assoc] using hw
    rcases hc with h1 | h1 | h1 | h1 <;> subst h1 <;> exact absurd h (by decide)

theorem isDigit_not_ws {c : Char} (h : c.isDigit = true) : c.isWhitespace = false := by
  cases hw : c.isWhitespace with
  | false => rfl
  | true =>
    exfalso
    have hc : c = ' ' ∨ c = '\t' ∨ c = '\r' ∨ c = '\n' := by
      simpa [Char.isWhitespace, or_assoc] using hw
    rcases hc with h1 | h1 | h1 | h1 <;> subst h1 <;> exact absurd h (by decide)

theorem isDigit_ne_dash {c : Char} (h : c.isDigit = true) : c ≠ '-' := by
  intro he
  subst he
  exact absurd h (by decide)

theorem exceptBind_ok {ε α β : Type} {x : Except ε α} {f : α → Except ε β} {b : β}
    (h : x.bind f = Except.ok b) : ∃ a, x = Except.ok a ∧ f a = Except.ok b := by
  cases x with
  | error e => simp [Except.bind] at h
  | ok a => exact ⟨a, rfl, h⟩

theorem vCustomerId_ok {c : Cell} {v : Int} (h : vCustomerId c = Except.ok v) :
    pyIntCoerce c = some v ∧ 0 < v := by
  unfold vCustomerId at h
  cases hc : pyIntCoerce c with
  | none => rw [hc] at h; cases h
  | some w =>
    rw [hc] at h
    dsimp only at h
    by_cases hw : w ≤ 0
    · rw [if_pos hw] at h; cases h
    · rw [if_neg hw] at h
      cases h
      exact ⟨rfl, by omega⟩

theorem vName_ok {fld : String} {c : Cell} {s : String} (h : vName fld c = Except.ok s) :
    c = Cell.str s ∧ isAlphaName s = true := by
  cases c with
  | str t =>
    simp only [vName, pyStrCoerce] at h
    by_cases h1 : t = ""
    · rw [if_pos h1] at h; cases h
    · rw [if_neg h1] at h
      by_cases h2 : isAlphaName t
      · rw [if_pos h2] at h; cases h; exact ⟨rfl, h2⟩
      · rw [if_neg h2] at h; cases h
  | null => simp only [vName, pyStrCoerce] at h; cases h
  | int i => simp only [vName, pyStrCoerce] at h; cases h
  | float q => simp only [vName, pyStrCoerce] at h; cases h
  | date d => simp only [vName, pyStrCoerce] at h; cases h

theorem vEmail_ok {c : Cell} {s : String} (h : vEmail c = Except.ok s) :
    c = Cell.str s ∧ isEmailShape s = true := by
  cases c with
  | str t =>
    simp only [vEmail, pyStrCoerce] at h
    by_cases h1 : isEmailShape t
    · rw [if_pos h1] at h; cases h; exact ⟨rfl, h1⟩
    · rw [if_neg h1] at h; cases h
  | null => simp only [vEmail, pyStrCoerce] at h; cases h
  | int i => simp only [vEmail, pyStrCoerce] at h; cases h
  | float q => simp only [vEmail, pyStrCoerce] at h; cases h
  | date d => simp only [vEmail, pyStrCoerce] at h; cases h

theorem vPhone_ok {c : Cell} {s : String} (h : vPhone c = Except.ok s) :
    c = Cell.str s := by
  cases c with
  | str t =>
    simp only [vPhone, pyStrCoerce] at h
    by_cases h1 : t.length < 7 || 20 < t.length
    · rw [if_pos h1] at h; cases h
    · rw [if_neg h1] at h; cases h; rfl
  | null => simp only [vPhone, pyStrCoerce] at h; cases h
  | int i => simp only [vPhone, pyStrCoerce] at h; cases h
  | float q => simp only [vPhone, pyStrCoerce] at h; cases h
  | date d => simp only [vPhone, pyStrCoerce] at h; cases h

theorem vAddress_ok {c : Cell} {s : String} (h : vAddress c = Except.ok s) :
    c = Cell.str s := by
  cases c with
  | str t =>
    simp only [vAddress, pyStrCoerce] at h
    by_cases h1 : t = "" || t.length < 10 || 200 < t.length
    · rw [if_pos h1] at h; cases h
    · rw [if_neg h1] at h; cases h; rfl
  | null => simp only [vAddress, pyStrCoerce] at h; cases h
  | int i => simp only [vAddress, pyStrCoerce] at h; cases h
  | float q => simp only [vAddress, pyStrCoerce] at h; cases h
  | date d => simp only [vAddress, pyStrCoerce] at h; cases h

theorem vStatus_ok {c : Cell} {s : String} (h : vStatus c = Except.ok s) :
    c = Cell.str s ∧ (s = "active" ∨ s = "inactive" ∨ s = "suspended") := by
  cases c with
  | str t =>
    simp only [vStatus, pyStrCoerce] at h
    by_cases h1 : t = "active" || t = "inactive" || t = "suspended"
    · rw [if_pos h1] at h
      cases h
      refine ⟨rfl, ?_⟩
      simpa [or_assoc] using h1
    · rw [if_neg h1] at h; cases h
  | null => simp only [vStatus, pyStrCoerce] at h; cases h
  | int i => simp only [vStatus, pyStrCoerce] at h; cases h
  | float q => simp only [vStatus, pyStrCoerce] at h; cases h
  | date d => simp only [vStatus, pyStrCoerce] at h; cases h

theorem vDate_ok {fld : String} {c : Cell} {d : Date} (h : vDate fld c = Except.ok d) :
    pyDateCoerce c = some d := by
  unfold vDate at h
  cases hc : pyDateCoerce c with
  | none => rw [hc] at h; cases h
  | some w => rw [hc] at h; cases h; rfl

theorem pyDateCoerce_ne_null {c : Cell} {d : Date} (h : pyDateCoerce c = some d) :
    c ≠ Cell.null := by
  intro he
  subst he
  simp [pyDateCoerce] at h

theorem validate_ok_shape {r : RawRow} {u : Customer}
    (h : validateCustomerCells r = Except.ok u) :
    (∃ v, pyIntCoerce r.customer_id = some v ∧ 0 < v) ∧
    (∃ s, r.first_name = Cell.str s ∧ isAlphaName s = true) ∧
    (∃ s, r.last_name = Cell.str s ∧ isAlphaName s = true) ∧
    (∃ s, r.email = Cell.str s ∧ isEmailShape s = true) ∧
    (∃ s, r.phone = Cell.str s) ∧
    (∃ s, r.address = Cell.str s) ∧
    (∃ s, r.account_status = Cell.str s ∧
      (s = "active" ∨ s = "inactive" ∨ s = "suspended")) ∧
    r.date_of_birth ≠ Cell.null ∧ r.created_date ≠ Cell.null := by
  unfold validateCustomerCells at h
  obtain ⟨cid, hcid, h⟩ := exceptBind_ok h
  obtain ⟨fn, hfn, h⟩ := exceptBind_ok h
  obtain ⟨ln, hln, h⟩ := exceptBind_ok h
  obtain ⟨em, hem, h⟩ := exceptBind_ok h
  obtain ⟨ph, hph, h⟩ := exceptBind_ok h
  obtain ⟨dob, hdob, h⟩ := exceptBind_ok h
  obtain ⟨ad, had, h⟩ := exceptBind_ok h
  obtain ⟨inc, hinc, h⟩ := exceptBind_ok h
  obtain ⟨st, hst, h⟩ := exceptBind_ok h
  obtain ⟨cd, hcd, h⟩ := exceptBind_ok h
  obtain ⟨hc1, hc2⟩ := vCustomerId_ok hcid
  obtain ⟨he1, he2⟩ := vEmail_ok hem
  obtain ⟨hs1, hs2⟩ := vStatus_ok hst
  exact ⟨⟨cid, hc1, hc2⟩, ⟨fn, vName_ok hfn⟩, ⟨ln, vName_ok hln⟩, ⟨em, he1, he2⟩,
    ⟨ph, vPhone_ok hph⟩, ⟨ad, vAddress_ok had⟩, ⟨st, hs1, hs2⟩,
    pyDateCoerce_ne_null (vDate_ok hdob), pyDateCoerce_ne_null (vDate_ok hcd)⟩

theorem validateRowsAux_cons_dup {seen : List Cell} {i : Nat} {r : RawRow} {rs : List RawRow}
    (hd : r.customer_id ∈ seen) :
    validateRowsAux seen i (r :: rs) =
      ⟨i, r.customer_id, "unknown", "Duplicate customer_id"⟩ :: validateRowsAux seen (i + 1) rs := by
  simp only [validateRowsAux]
  rw [if_pos hd]

theorem validateRowsAux_cons_ok {seen : List Cell} {i : Nat} {r : RawRow} {rs : List RawRow}
    {u : Customer} (hd : r.customer_id ∉ seen) (hv : validateCustomerCells r = Except.ok u) :
    validateRowsAux seen i (r :: rs) = validateRowsAux (r.customer_id :: seen) (i + 1) rs := by
  simp only [validateRowsAux]
  rw [if_neg hd, hv]

theorem validateRowsAux_cons_err {seen : List Cell} {i : Nat} {r : RawRow} {rs : List RawRow}
    {e : String × String} (hd : r.customer_id ∉ seen)
    (hv : validateCustomerCells r = Except.error e) :
    validateRowsAux seen i (r :: rs) =
      ⟨i, r.customer_id, e.1, e.2⟩ :: validateRowsAux (r.customer_id :: seen) (i + 1) rs := by
  simp only [validateRowsAux]
  rw [if_neg hd, hv]

theorem validateRowsAux_index_ge :
    ∀ (rows : List RawRow) (seen : List Cell) (i : Nat) (f : FailRec),
      f ∈ validateRowsAux seen i rows → i ≤ f.row_index := by
  intro rows
  induction rows with
  | nil => intro seen i f hf; simp [validateRowsAux] at hf
  | cons r rs ih =>
    intro seen i f hf
    by_cases hd : r.customer_id ∈ seen
    · rw [validateRowsAux_cons_dup hd] at hf
      rcases List.mem_cons.mp hf with hf | hf
      · subst hf; exact Nat.le_refl i
      · have := ih seen (i + 1) f hf; omega
    · cases hv : validateCustomerCells r with
      | ok u =>
        rw [validateRowsAux_cons_ok hd hv] at hf
        have := ih _ (i + 1) f hf; omega
      | error e =>
        rw [validateRowsAux_cons_err hd hv] at hf
        rcases List.mem_cons.mp hf with hf | hf
        · subst hf; exact Nat.le_refl i
        · have := ih _ (i + 1) f hf; omega

theorem validateRowsAux_dup_mem :
    ∀ (rows : List RawRow) (seen : List Cell) (i j : Nat), j < rows.length →
      ((rows.getD j emptyRow).customer_id ∈ seen ∨
        ∃ k, k < j ∧
          (rows.getD k emptyRow).customer_id = (rows.getD j emptyRow).customer_id) →
      (⟨i + j, (rows.getD j emptyRow).customer_id, "unknown", "Duplicate customer_id"⟩ :
          FailRec) ∈ validateRowsAux seen i rows := by
  intro rows
  induction rows with
  | nil => intro seen i j hj; simp at hj
  | cons r rs ih =>
    intro seen i j hj hdup
    cases j with
    | zero =>
      have hd : r.customer_id ∈ seen := by
        rcases hdup with h | ⟨k, hk, _⟩
        · simpa using h
        · omega
      rw [validateRowsAux_cons_dup hd]
      simp
    | succ j' =>
      have hj' : j' < rs.length := by simpa using hj
      have hidx : i + (j' + 1) = (i + 1) + j' := by omega
      by_cases hd : r.customer_id ∈ seen
      · rw [validateRowsAux_cons_dup hd]
        refine List.mem_cons_of_mem _ ?_
        have htr : (rs.getD j' emptyRow).customer_id ∈ seen ∨
            ∃ k, k < j' ∧
              (rs.getD k emptyRow).customer_id = (rs.getD j' emptyRow).customer_id := by
          rcases hdup with h | ⟨k, hk, he⟩
          · left; simpa using h
          · cases k with
            | zero =>
              left
              simp only [List.getD_cons_zero, List.getD_cons_succ] at he
              rw [← he]; exact hd
            | succ k' =>
              right
              exact ⟨k', by omega, by simpa using he⟩
        have := ih seen (i + 1) j' hj' htr
        simpa [hidx] using this
      · have htr : (rs.getD j' emptyRow).customer_id ∈ (r.customer_id :: seen) ∨
            ∃ k, k < j' ∧
              (rs.getD k emptyRow).customer_id = (rs.getD j' emptyRow).customer_id := by
          rcases hdup with h | ⟨k, hk, he⟩
          · left
            exact List.mem_cons_of_mem _ (by simpa using h)
          · cases k with
            | zero =>
              left
              simp only [List.getD_cons_zero, List.getD_cons_succ] at he
              rw [← he]
              exact List.mem_cons_self _ _
            | succ k' =>
              right
              exact ⟨k', by omega, by simpa using he⟩
        cases hv : validateCustomerCells r with
        | ok u =>
          rw [validateRowsAux_cons_ok hd hv]
          have := ih (r.customer_id :: seen) (i + 1) j' hj' htr
          simpa [hidx] using this
        | error e =>
          rw [validateRowsAux_cons_err hd hv]
          refine List.mem_cons_of_mem _ ?_
          have := ih (r.customer_id :: seen) (i + 1) j' hj' htr
          simpa [hidx] using this

theorem validateRowsAux_dup_unique :
    ∀ (rows : List RawRow) (seen : List Cell) (i j : Nat), j < rows.length →
      ((rows.getD j emptyRow).customer_id ∈ seen ∨
        ∃ k, k < j ∧
          (rows.getD k emptyRow).customer_id = (rows.getD j emptyRow).customer_id) →
      ∀ f ∈ validateRowsAux seen i rows, f.row_index = i + j →
        f = ⟨i + j, (rows.getD j emptyRow).customer_id, "unknown", "Duplicate customer_id"⟩ := by
  intro rows
  induction rows with
  | nil => intro seen i j hj; simp at hj
  | cons r rs ih =>
    intro seen i j hj hdup f hf hidx
    cases j with
    | zero =>
      have hd : r.customer_id ∈ seen := by
        rcases hdup with h | ⟨k, hk, _⟩
        · simpa using h
        · omega
      rw [validateRowsAux_cons_dup hd] at hf
      rcases List.mem_cons.mp hf with hf | hf
      · subst hf; simp
      · exfalso
        have := validateRowsAux_index_ge rs seen (i + 1) f hf
        omega
    | succ j' =>
      have hj' : j' < rs.length := by simpa using hj
      have hi2 : i + (j' + 1) = (i + 1) + j' := by omega
      by_cases hd : r.customer_id ∈ seen
      · rw [validateRowsAux_cons_dup hd] at hf
        rcases List.mem_cons.mp hf with hf | hf
        · exfalso; subst hf; simp at hidx
        · have htr : (rs.getD j' emptyRow).customer_id ∈ seen ∨
              ∃ k, k < j' ∧
                (rs.getD k emptyRow).customer_id = (rs.getD j' emptyRow).customer_id := by
            rcases hdup with h | ⟨k, hk, he⟩
            · left; simpa using h
            · cases k with
              | zero =>
                left
                simp only [List.getD_cons_zero, List.getD_cons_succ] at he
                rw [← he]; exact hd
              | succ k' => right; exact ⟨k', by omega, by simpa using he⟩
          have := ih seen (i + 1) j' hj' htr f hf (by omega)
          simpa [hi2] using this
      · have htr : (rs.getD j' emptyRow).customer_id ∈ (r.customer_id :: seen) ∨
            ∃ k, k < j' ∧
              (rs.getD k emptyRow).customer_id = (rs.getD j' emptyRow).customer_id := by
          rcases hdup with h | ⟨k, hk, he⟩
          · left; exact List.mem_cons_of_mem _ (by simpa using h)
          · cases k with
            | zero =>
              left
              simp only [List.getD_cons_zero, List.getD_cons_succ] at he
              rw [← he]; exact List.mem_cons_self _ _
            | succ k' => right; exact ⟨k', by omega, by simpa using he⟩
        cases hv : validateCustomerCells r with
        | ok u =>
          rw [validateRowsAux_cons_ok hd hv] at hf
          have := ih (r.customer_id :: seen) (i + 1) j' hj' htr f hf (by omega)
          simpa [hi2] using this
        | error e =>
          rw [validateRowsAux_cons_err hd hv] at hf
          rcases List.mem_cons.mp hf with hf | hf
          · exfalso; subst hf; simp at hidx
          · have := ih (r.customer_id :: seen) (i + 1) j' hj' htr f hf (by omega)
            simpa [hi2] using this

theorem validateRowsAux_first_occ :
    ∀ (rows : List RawRow) (seen : List Cell) (i j : Nat), j < rows.length →
      (rows.getD j emptyRow).customer_id ∉ seen →
      (∀ k, k < j →
        (rows.getD k emptyRow).customer_id ≠ (rows.getD j emptyRow).customer_id) →
      ∀ f ∈ validateRowsAux seen i rows, f.row_index = i + j →
        ∃ c m, validateCustomerCells (rows.getD j emptyRow) = Except.error (c, m) ∧
          f = ⟨i + j, (rows.getD j emptyRow).customer_id, c, m⟩ := by
  intro rows
  induction rows with
  | nil => intro seen i j hj; simp at hj
  | cons r rs ih =>
    intro seen i j hj hns hfirst f hf hidx
    cases j with
    | zero =>
      have hd : r.customer_id ∉ seen := by simpa using hns
      cases hv : validateCustomerCells r with
      | ok u =>
        exfalso
        rw [validateRowsAux_cons_ok hd hv] at hf
        have := validateRowsAux_index_ge rs _ (i + 1) f hf
        omega
      | error e =>
        rw [validateRowsAux_cons_err hd hv] at hf
        rcases List.mem_cons.mp hf with hf | hf
        · subst hf
          exact ⟨e.1, e.2, by simpa using hv, by simp⟩
        · exfalso
          have := validateRowsAux_index_ge rs _ (i + 1) f hf
          omega
    | succ j' =>
      have hj' : j' < rs.length := by simpa using hj
      have hi2 : i + (j' + 1) = (i + 1) + j' := by omega
      have hns' : (rs.getD j' emptyRow).customer_id ∉ seen := by simpa using hns
      have hfirst' : ∀ k, k < j' →
          (rs.getD k emptyRow).customer_id ≠ (rs.getD j' emptyRow).customer_id := by
        intro k hk
        have := hfirst (k + 1) (by omega)
        simpa using this
      by_cases hd : r.customer_id ∈ seen
      · rw [validateRowsAux_cons_dup hd] at hf
        rcases List.mem_cons.mp hf with hf | hf
        · exfalso; subst hf; simp at hidx
        · have := ih seen (i + 1) j' hj' hns' hfirst' f hf (by omega)
          simpa [hi2] using this
      · have hne0 : r.customer_id ≠ (rs.getD j' emptyRow).customer_id := by
          have := hfirst 0 (by omega)
          simpa using this
        have hns2 : (rs.getD j' emptyRow).customer_id ∉ (r.customer_id :: seen) := by
          intro hmem
          rcases List.mem_cons.mp hmem with hmem | hmem
          · exact hne0 hmem.symm
          · exact hns' hmem
        cases hv : validateCustomerCells r with
        | ok u =>
          rw [validateRowsAux_cons_ok hd hv] at hf
          have := ih (r.customer_id :: seen) (i + 1) j' hj' hns2 hfirst' f hf (by omega)
          simpa [hi2] using this
        | error e =>
          rw [validateRowsAux_cons_err hd hv] at hf
          rcases List.mem_cons.mp hf with hf | hf
          · exfalso; subst hf; simp at hidx
          · have := ih (r.customer_id :: seen) (i + 1) j' hj' hns2 hfirst' f hf (by omega)
            simpa [hi2] using this

theorem validateRowsAux_all_ok :
    ∀ (rows : List RawRow) (seen : List Cell) (i : Nat),
      (rows.map (fun r => r.customer_id)).Nodup →
      (∀ r ∈ rows, r.customer_id ∉ seen) →
      (∀ r ∈ rows, ∃ u, validateCustomerCells r = Except.ok u) →
      validateRowsAux seen i rows = [] := by
  intro rows
  induction rows with
  | nil => intro seen i _ _ _; rfl
  | cons r rs ih =>
    intro seen i hnd hseen hacc
    have hd : r.customer_id ∉ seen := hseen r (List.mem_cons_self _ _)
    have hnd' := hnd
    rw [List.map_cons, List.nodup_cons] at hnd'
    obtain ⟨u, hv⟩ := hacc r (List.mem_cons_self _ _)
    rw [validateRowsAux_cons_ok hd hv]
    refine ih (r.customer_id :: seen) (i + 1) hnd'.2 ?_ ?_
    · intro x hx hmem
      rcases List.mem_cons.mp hmem with hmem | hmem
      · exact hnd'.1 (hmem ▸ List.mem_map_of_mem (fun r => r.customer_id) hx)
      · exact hseen x (List.mem_cons_of_mem _ hx) hmem
    · intro x hx
      exact hacc x (List.mem_cons_of_mem _ hx)

theorem filter_length_partition {α : Type} (p : α → Bool) :
    ∀ l : List α, (l.filter p).length + (l.filter (fun a => !p a)).length = l.length := by
  intro l
  induction l with
  | nil => rfl
  | cons a l ih =>
    by_cases h : p a = true
    · simp [List.filter_cons, h]
      omega
    · rw [Bool.not_eq_true] at h
      simp [List.filter_cons, h]
      omega

theorem clean_partition (now : Date) (rows : List RawRow) :
    (cleanedTable now rows).length + (flaggedRecs now rows).length =
      (gateRows rows).length := by
  unfold cleanedTable flaggedRecs acceptedPairs
  rw [List.length_map, List.length_map]
  have h := filter_length_partition (fun p : Nat × RawRow => isAccepted p.2)
    (repairedPairs now rows)
  have h2 : (repairedPairs now rows).length = (gateRows rows).length := by
    unfold repairedPairs
    rw [List.length_map]
  omega

theorem gateRows_length_le (rows : List RawRow) :
    (gateRows rows).length ≤ rows.length := by
  unfold gateRows
  refine le_trans (List.length_filter_le _ _) ?_
  rw [List.length_map]
  refine le_trans (List.length_filter_le _ _) ?_
  rw [List.enum_length, List.length_map]

theorem clean_ok_inv {now : Date} {rows : List RawRow} {out : List RawRow}
    {res : CleanResult} (h : clean_dataset now rows = Except.ok (out, res)) :
    out = cleanedTable now rows ∧
      res = ⟨rows.length, rows.length - (gateRows rows).length,
        (cleanedTable now rows).length, (flaggedRecs now rows).length,
        flaggedRecs now rows⟩ ∧
      (cleanedTable now rows).length ≠ 0 := by
  unfold clean_dataset at h
  by_cases hz : (cleanedTable now rows).length = 0
  · rw [if_pos hz] at h; cases h
  · rw [if_neg hz] at h
    simp only [Except.ok.injEq, Prod.mk.injEq] at h
    exact ⟨h.1.symm, h.2.symm, hz⟩

theorem cleanedTable_mem {now : Date} {rows : List RawRow} {r : RawRow}
    (hr : r ∈ cleanedTable now rows) :
    ∃ q ∈ gateRows rows, r = repairRow now q.2 ∧ isAccepted r = true := by
  unfold cleanedTable at hr
  obtain ⟨pp, hpp, he⟩ := List.mem_map.mp hr
  unfold acceptedPairs at hpp
  obtain ⟨hmem, hacc⟩ := List.mem_filter.mp hpp
  unfold repairedPairs at hmem
  obtain ⟨q, hq, he2⟩ := List.mem_map.mp hmem
  subst he2
  simp only at he hacc
  subst he
  exact ⟨q, hq, rfl, hacc⟩

theorem revalidationCoerce_ok {r r2 : RawRow} (h : revalidationCoerce r = Except.ok r2) :
    ∃ i v, pyIntOfCell r.customer_id = some i ∧ pyFloatCoerce r.income = some v ∧
      r2 = { r with customer_id := Cell.int i, income := Cell.float v } := by
  unfold revalidationCoerce at h
  cases h1 : pyIntOfCell r.customer_id with
  | none => rw [h1] at h; cases h
  | some i =>
    rw [h1] at h
    cases h2 : pyFloatCoerce r.income with
    | none => rw [h2] at h; cases h
    | some v =>
      rw [h2] at h
      simp only [Except.ok.injEq] at h
      exact ⟨i, v, rfl, rfl, h.symm⟩

theorem isAccepted_ok {r : RawRow} (h : isAccepted r = true) :
    ∃ r2 u, revalidationCoerce r = Except.ok r2 ∧ validateCustomerCells r2 = Except.ok u := by
  unfold isAccepted at h
  cases hc : revalidationCoerce r with
  | error e => rw [hc] at h; cases h
  | ok r2 =>
    rw [hc] at h
    have h2 : (match validateCustomerCells r2 with
        | Except.ok _ => true
        | Except.error _ => false) = true := h
    cases hv : validateCustomerCells r2 with
    | error e => rw [hv] at h2; cases h2
    | ok u => exact ⟨r2, u, rfl, hv⟩

theorem vCustomerId_congr {c : Cell} {i : Int} (hint : isIntegralNumCell c = true)
    (h : pyIntOfCell c = some i) : vCustomerId c = vCustomerId (Cell.int i) := by
  cases c with
  | null => simp [isIntegralNumCell] at hint
  | str t => simp [isIntegralNumCell] at hint
  | date d => simp [isIntegralNumCell] at hint
  | int j =>
    simp only [pyIntOfCell, Option.some.injEq] at h
    rw [h]
  | float q =>
    have hd : q.den = 1 := by simpa [isIntegralNumCell] using hint
    simp only [pyIntOfCell, Option.some.injEq] at h
    have htr : ratTrunc q = q.num := by
      unfold ratTrunc
      rw [hd]
      exact Int.tdiv_one q.num
    rw [← h, htr]
    unfold vCustomerId
    have hpc : pyIntCoerce (Cell.float q) = some q.num := by
      simp [pyIntCoerce, hd]
    rw [hpc]
    rfl

theorem vIncome_congr {c : Cell} {v : Rat} (h : pyFloatCoerce c = some v) :
    vIncome c = vIncome (Cell.float v) := by
  unfold vIncome
  rw [h]
  rfl

theorem accepted_validates {r : RawRow} (hacc : isAccepted r = true)
    (hint : isIntegralNumCell r.customer_id = true) :
    ∃ u, validateCustomerCells r = Except.ok u := by
  obtain ⟨r2, u, hc, hv⟩ := isAccepted_ok hacc
  obtain ⟨i, v, hi, hvv, hr2⟩ := revalidationCoerce_ok hc
  subst hr2
  refine ⟨u, ?_⟩
  rw [← hv]
  unfold validateCustomerCells
  rw [vCustomerId_congr hint hi, vIncome_congr hvv]

theorem cleaned_no_null_addr_dob (now : Date) (rows : List RawRow) :
    ∀ r ∈ cleanedTable now rows, r.address ≠ Cell.null ∧ r.date_of_birth ≠ Cell.null := by
  intro r hr
  obtain ⟨q, _, _, hacc⟩ := cleanedTable_mem hr
  obtain ⟨r2, u, hc, hv⟩ := isAccepted_ok hacc
  obtain ⟨i, v, hi, hvv, hr2⟩ := revalidationCoerce_ok hc
  subst hr2
  obtain ⟨_, _, _, _, _, ⟨s, hads⟩, _, hdob, _⟩ := validate_ok_shape hv
  refine ⟨?_, hdob⟩
  rw [show r.address = Cell.str s from hads]
  intro hc2
  cases hc2

theorem numCell_not_str (q : Rat) (s : String) : numCell q ≠ Cell.str s := by
  unfold numCell
  split <;> simp

theorem toNumericCell_not_str (c : Cell) (s : String) : toNumericCell c ≠ Cell.str s := by
  cases c with
  | null => simp [toNumericCell]
  | int i => simp [toNumericCell]
  | float q => simp [toNumericCell]
  | date d => simp [toNumericCell]
  | str t =>
    cases h : strToNumeric t with
    | none => simp [toNumericCell, h]
    | some q =>
      show toNumericCell (Cell.str t) ≠ Cell.str s
      simp only [toNumericCell, h]
      exact numCell_not_str q s

theorem trimCell_of_not_str {c : Cell} (h : ∀ s, c ≠ Cell.str s) : trimCell c = c := by
  cases c with
  | str t => exact absurd rfl (h t)
  | null => rfl
  | int i => rfl
  | float q => rfl
  | date d => rfl

theorem fillIncome_not_str {c : Cell} (h : ∀ s, c ≠ Cell.str s) (s : String) :
    fillIncome c ≠ Cell.str s := by
  cases c with
  | null => simp [fillIncome]
  | str t => exact absurd rfl (h t)
  | int i => simp [fillIncome]
  | float q => simp [fillIncome]
  | date d => simp [fillIncome]

theorem normalize_phone_shape (c : Cell) :
    normalize_phone c = Cell.null ∨
      ∃ ds : List Char, ds.length = 10 ∧ (∀ ch ∈ ds, ch.isDigit = true) ∧
        normalize_phone c =
          Cell.str (String.mk (ds.take 3 ++ '-' :: ((ds.drop 3).take 3) ++ '-' :: ds.drop 6)) := by
  unfold normalize_phone
  by_cases hn : c = Cell.null
  · rw [if_pos hn]; left; rfl
  · rw [if_neg hn]
    by_cases hl : ((cellPyStr c).data.filter Char.isDigit).length = 10
    · rw [if_pos hl]
      right
      exact ⟨(cellPyStr c).data.filter Char.isDigit, hl,
        fun ch hch => List.of_mem_filter hch, rfl⟩
    · rw [if_neg hl]; left; rfl

theorem cleanPhoneCell_shape (c : Cell) :
    cleanPhoneCell c = Cell.str "000-000-0000" ∨
      ∃ ds : List Char, ds.length = 10 ∧ (∀ ch ∈ ds, ch.isDigit = true) ∧
        cleanPhoneCell c =
          Cell.str (String.mk (ds.take 3 ++ '-' :: ((ds.drop 3).take 3) ++ '-' :: ds.drop 6)) := by
  rcases normalize_phone_shape c with h | ⟨ds, h1, h2, h3⟩
  · left; unfold cleanPhoneCell; rw [h]
  · right
    refine ⟨ds, h1, h2, ?_⟩
    unfold cleanPhoneCell
    rw [h3]

theorem trimCell_of_noWS {s : String} (h : ∀ c ∈ s.data, c.isWhitespace = false) :
    trimCell (Cell.str s) = Cell.str s := by
  simp [trimCell, pyStrip_eq_self h]

theorem isAlphaName_noWS {s : String} (h : isAlphaName s = true) :
    ∀ c ∈ s.data, c.isWhitespace = false := by
  intro c hc
  unfold isAlphaName at h
  simp only [Bool.and_eq_true, List.all_eq_true] at h
  exact isAlpha_not_ws (h.2 c hc)

theorem isEmailShape_noWS {s : String} (h : isEmailShape s = true) :
    ∀ c ∈ s.data, c.isWhitespace = false := by
  intro c hc
  unfold isEmailShape at h
  cases hsp : splitFirst '@' s.data with
  | none => rw [hsp] at h; cases h
  | some p =>
    rw [hsp] at h
    cases p with
    | mk l d =>
      simp only [Bool.and_eq_true, List.all_eq_true] at h
      have := h.2 c hc
      simpa using this

theorem fillStr_trim_fix {ph : String} (hph : trimCell (Cell.str ph) = Cell.str ph)
    (c : Cell) : trimCell (fillStr ph (trimCell c)) = fillStr ph (trimCell c) := by
  cases c with
  | null => simpa [trimCell, fillStr] using hph
  | int i => rfl
  | float q => rfl
  | date d => rfl
  | str s =>
    show trimCell (fillStr ph (Cell.str (pyStrip s))) = fillStr ph (Cell.str (pyStrip s))
    simp only [fillStr]
    by_cases hm : (decide (pyStrip s = "") || decide (pyStrip s = "nan")) = true
    · rw [if_pos hm]; exact hph
    · rw [if_neg hm]
      show Cell.str (pyStrip (pyStrip s)) = Cell.str (pyStrip s)
      rw [pyStrip_idem]

theorem fillDate_date (ph : Date) (c : Cell) :
    ∃ d, fillDate ph (toDatetimeCell c) = Cell.date d := by
  cases c with
  | null => exact ⟨ph, rfl⟩
  | int i => exact ⟨ph, rfl⟩
  | float q => exact ⟨ph, rfl⟩
  | date d => exact ⟨d, rfl⟩
  | str s =>
    cases h : parseDateStr s with
    | none => exact ⟨ph, by simp [toDatetimeCell, h, fillDate]⟩
    | some d => exact ⟨d, by simp [toDatetimeCell, h, fillDate]⟩

theorem snd_mem_of_mem_enumFrom {α : Type} :
    ∀ (l : List α) (n : Nat) (p : Nat × α), p ∈ l.enumFrom n → p.2 ∈ l := by
  intro l
  induction l with
  | nil => intro n p hp; simp at hp
  | cons a t ih =>
    intro n p hp
    rw [List.enumFrom_cons] at hp
    rcases List.mem_cons.mp hp with hp | hp
    · subst hp; exact List.mem_cons_self _ _
    · exact List.mem_cons_of_mem _ (ih (n + 1) p hp)

theorem gateRows_mem {rows : List RawRow} {p : Nat × RawRow} (hp : p ∈ gateRows rows) :
    ∃ r0, p.2 = toNumericRow (trimRow r0) := by
  unfold gateRows at hp
  have hp1 := (List.mem_filter.mp hp).1
  obtain ⟨q, hq, he⟩ := List.mem_map.mp hp1
  have hq1 := (List.mem_filter.mp hq).1
  have hq2 : q.2 ∈ rows.map trimRow :=
    snd_mem_of_mem_enumFrom _ 0 q (by simpa [List.enum] using hq1)
  obtain ⟨r0, _, hq3⟩ := List.mem_map.mp hq2
  refine ⟨r0, ?_⟩
  rw [← he]
  show toNumericRow q.2 = toNumericRow (trimRow r0)
  rw [hq3]

theorem trimRow_eq_self {q : RawRow}
    (h1 : trimCell q.customer_id = q.customer_id)
    (h2 : trimCell q.first_name = q.first_name)
    (h3 : trimCell q.last_name = q.last_name)
    (h4 : trimCell q.email = q.email)
    (h5 : trimCell q.phone = q.phone)
    (h6 : trimCell q.date_of_birth = q.date_of_birth)
    (h7 : trimCell q.address = q.address)
    (h8 : trimCell q.income = q.income)
    (h9 : trimCell q.account_status = q.account_status)
    (h10 : trimCell q.created_date = q.created_date) : trimRow q = q := by
  cases q
  simp only at h1 h2 h3 h4 h5 h6 h7 h8 h9 h10
  simp only [trimRow]
  rw [h1, h2, h3, h4, h5, h6, h7, h8, h9, h10]

theorem trim_fix_accepted {now : Date} {rows : List RawRow} {p : Nat × RawRow}
    (hp : p ∈ gateRows rows) (hacc : isAccepted (repairRow now p.2) = true) :
    trimRow (repairRow now p.2) = repairRow now p.2 := by
  obtain ⟨r0, hr0⟩ := gateRows_mem hp
  obtain ⟨r2, u, hco, hv⟩ := isAccepted_ok hacc
  obtain ⟨iv, vv, _, _, hr2⟩ := revalidationCoerce_ok hco
  subst hr2
  obtain ⟨_, ⟨fn, hfn0, hfna⟩, ⟨ln, hln0, hlna⟩, ⟨em, hem0, hema⟩, _, _,
    ⟨st, hst0, hsts⟩, _, _⟩ := validate_ok_shape hv
  have hfn : (repairRow now p.2).first_name = Cell.str fn := hfn0
  have hln : (repairRow now p.2).last_name = Cell.str ln := hln0
  have hem : (repairRow now p.2).email = Cell.str em := hem0
  have hst : (repairRow now p.2).account_status = Cell.str st := hst0
  rw [hr0] at hfn hln hem hst ⊢
  refine trimRow_eq_self ?_ ?_ ?_ ?_ ?_ ?_ ?_ ?_ ?_ ?_
  · show trimCell (toNumericCell ((trimRow r0).customer_id)) =
      toNumericCell ((trimRow r0).customer_id)
    exact trimCell_of_not_str (toNumericCell_not_str _)
  · rw [hfn]; exact trimCell_of_noWS (isAlphaName_noWS hfna)
  · rw [hln]; exact trimCell_of_noWS (isAlphaName_noWS hlna)
  · rw [hem]; exact trimCell_of_noWS (isEmailShape_noWS hema)
  · show trimCell (cleanPhoneCell ((trimRow r0).phone)) =
      cleanPhoneCell ((trimRow r0).phone)
    rcases cleanPhoneCell_shape ((trimRow r0).phone) with h | ⟨ds, hdl, hdd, h⟩
    · rw [h]; decide
    · rw [h]
      refine trimCell_of_noWS ?_
      intro c hc
      have hc' : c ∈ ds.take 3 ++ '-' :: ((ds.drop 3).take 3) ++ '-' :: ds.drop 6 := hc
      rcases List.mem_append.mp hc' with h1 | h1
      · rcases List.mem_append.mp h1 with h2 | h2
        · exact isDigit_not_ws (hdd c (List.take_subset _ _ h2))
        · rcases List.mem_cons.mp h2 with h3 | h3
          · subst h3; decide
          · exact isDigit_not_ws (hdd c (List.drop_subset _ _ (List.take_subset _ _ h3)))
      · rcases List.mem_cons.mp h1 with h2 | h2
        · subst h2; decide
        · exact isDigit_not_ws (hdd c (List.drop_subset _ _ h2))
  · show trimCell (fillDate ⟨1900, 1, 1⟩ (toDatetimeCell ((trimRow r0).date_of_birth))) =
      fillDate ⟨1900, 1, 1⟩ (toDatetimeCell ((trimRow r0).date_of_birth))
    obtain ⟨d, hd⟩ := fillDate_date ⟨1900, 1, 1⟩ ((trimRow r0).date_of_birth)
    rw [hd]; rfl
  · show trimCell (fillStr "Address Not Provided" (trimCell r0.address)) =
      fillStr "Address Not Provided" (trimCell r0.address)
    exact fillStr_trim_fix (by decide) r0.address
  · show trimCell (fillIncome (toNumericCell ((trimRow r0).income))) =
      fillIncome (toNumericCell ((trimRow r0).income))
    exact trimCell_of_not_str (fillIncome_not_str (toNumericCell_not_str _))
  · rw [hst]
    rcases hsts with h | h | h <;> subst h <;> decide
  · show trimCell (fillDate now (toDatetimeCell ((trimRow r0).created_date))) =
      fillDate now (toDatetimeCell ((trimRow r0).created_date))
    obtain ⟨d, hd⟩ := fillDate_date now ((trimRow r0).created_date)
    rw [hd]; rfl

theorem cleanedTable_trim_fixed (now : Date) (rows : List RawRow) :
    (cleanedTable now rows).map trimRow = cleanedTable now rows := by
  refine (List.map_congr_left ?_).trans (List.map_id _)
  intro r hr
  obtain ⟨q, hq, he, hacc⟩ := cleanedTable_mem hr
  subst he
  exact trim_fix_accepted hq hacc

theorem cleanedTable_ids_nodup {rows : List RawRow} (now : Date)
    (hnd : ((gateRows rows).map (fun p => p.2.customer_id)).Nodup) :
    ((cleanedTable now rows).map (fun r => r.customer_id)).Nodup := by
  have h1 : (cleanedTable now rows).map (fun r => r.customer_id) =
      (acceptedPairs now rows).map (fun p => p.2.customer_id) := by
    unfold cleanedTable
    rw [List.map_map]
    rfl
  rw [h1]
  have h2 : List.Sublist (acceptedPairs now rows) (repairedPairs now rows) :=
    List.filter_sublist _
  have h4 : (repairedPairs now rows).map (fun p => p.2.customer_id) =
      (gateRows rows).map (fun p => p.2.customer_id) := by
    unfold repairedPairs
    rw [List.map_map]
    rfl
  have h5 : ((repairedPairs now rows).map (fun p => p.2.customer_id)).Nodup := by
    rw [h4]; exact hnd
  exact h5.sublist (h2.map _)

theorem validate_clean_empty (now : Date) (rows : List RawRow)
    (hnd : ((gateRows rows).map (fun p => p.2.customer_id)).Nodup)
    (hint : ∀ p ∈ gateRows rows, isIntegralNumCell p.2.customer_id = true) :
    validateRowsAux [] 0 ((cleanedTable now rows).map trimRow) = [] := by
  rw [cleanedTable_trim_fixed]
  refine validateRowsAux_all_ok _ [] 0 (cleanedTable_ids_nodup now hnd) ?_ ?_
  · intro r _
    simp
  · intro r hr
    obtain ⟨q, hq, he, hacc⟩ := cleanedTable_mem hr
    have hint2 : isIntegralNumCell r.customer_id = true := by
      rw [he]
      exact hint q hq
    exact accepted_validates hacc hint2

theorem takeWhile_append_all {α : Type} (p : α → Bool) :
    ∀ (t l : List α), (∀ x ∈ t, p x = true) →
      (t ++ l).takeWhile p = t ++ l.takeWhile p := by
  intro t
  induction t with
  | nil => intro l _; rfl
  | cons a t ih =>
    intro l h
    have ha : p a = true := h a (List.mem_cons_self _ _)
    simp only [List.cons_append, List.takeWhile_cons, ha, if_true]
    rw [ih l (fun x hx => h x (List.mem_cons_of_mem _ hx))]

theorem dropWhile_append_all {α : Type} (p : α → Bool) :
    ∀ (t l : List α), (∀ x ∈ t, p x = true) →
      (t ++ l).dropWhile p = l.dropWhile p := by
  intro t
  induction t with
  | nil => intro l _; rfl
  | cons a t ih =>
    intro l h
    have ha : p a = true := h a (List.mem_cons_self _ _)
    simp only [List.cons_append, List.dropWhile_cons, ha, if_true]
    exact ih l (fun x hx => h x (List.mem_cons_of_mem _ hx))

theorem takeWhile_all_eq {α : Type} (p : α → Bool) :
    ∀ (l : List α), (∀ x ∈ l, p x = true) → l.takeWhile p = l := by
  intro l h
  have := takeWhile_append_all p l [] h
  simpa using this

theorem dropWhile_all_eq {α : Type} (p : α → Bool) :
    ∀ (l : List α), (∀ x ∈ l, p x = true) → l.dropWhile p = [] := by
  intro l h
  have := dropWhile_append_all p l [] h
  simpa using this

theorem pySplitWS_cons_ws {c : Char} {cs : List Char} (h : c.isWhitespace = true) :
    pySplitWS (c :: cs) = pySplitWS cs := by
  rw [pySplitWS, if_pos h]

theorem pySplitWS_cons_nws {c : Char} {cs : List Char} (h : c.isWhitespace = false) :
    pySplitWS (c :: cs) =
      (c :: cs.takeWhile (fun ch => !ch.isWhitespace)) ::
        pySplitWS (cs.dropWhile (fun ch => !ch.isWhitespace)) := by
  rw [pySplitWS, if_neg (by simp [h])]

theorem pySplitWS_nil : pySplitWS [] = [] := by
  rw [pySplitWS]

theorem pySplitWS_tokens_aux :
    ∀ (n : Nat) (cs : List Char), cs.length ≤ n → ∀ t ∈ pySplitWS cs,
      t ≠ [] ∧ ∀ c ∈ t, c.isWhitespace = false := by
  intro n
  induction n with
  | zero =>
    intro cs hcs t ht
    have : cs = [] := List.eq_nil_of_length_eq_zero (Nat.le_zero.mp hcs)
    subst this
    rw [pySplitWS_nil] at ht
    cases ht
  | succ n ih =>
    intro cs hcs t ht
    cases cs with
    | nil =>
      rw [pySplitWS_nil] at ht
      cases ht
    | cons c cs' =>
      have hlen : cs'.length ≤ n := by
        simp only [List.length_cons] at hcs
        omega
      by_cases hw : c.isWhitespace = true
      · rw [pySplitWS_cons_ws hw] at ht
        exact ih cs' hlen t ht
      · rw [Bool.not_eq_true] at hw
        rw [pySplitWS_cons_nws hw] at ht
        rcases List.mem_cons.mp ht with ht | ht
        · subst ht
          refine ⟨by simp, ?_⟩
          intro x hx
          rcases List.mem_cons.mp hx with hx | hx
          · subst hx; exact hw
          · have := List.mem_takeWhile_imp hx
            simpa using this
        · have hlen2 : (cs'.dropWhile (fun ch => !ch.isWhitespace)).length ≤ n := by
            have := (List.dropWhile_suffix
              (l := cs') (fun ch => !ch.isWhitespace)).sublist.length_le
            omega
          exact ih _ hlen2 t ht

theorem pySplitWS_tokens (cs : List Char) :
    ∀ t ∈ pySplitWS cs, t ≠ [] ∧ ∀ c ∈ t, c.isWhitespace = false :=
  pySplitWS_tokens_aux cs.length cs (Nat.le_refl _)

theorem pySplitWS_joinSpace :
    ∀ (ts : List (List Char)),
      (∀ t ∈ ts, t ≠ [] ∧ ∀ c ∈ t, c.isWhitespace = false) →
      pySplitWS (joinSpace ts) = ts := by
  intro ts
  induction ts with
  | nil => intro _; exact pySplitWS_nil
  | cons t ts ih =>
    intro h
    obtain ⟨hne, hnws⟩ := h t (List.mem_cons_self _ _)
    cases htc : t with
    | nil => exact absurd htc hne
    | cons c t' =>
      have hc : c.isWhitespace = false := by
        rw [htc] at hnws
        exact hnws c (List.mem_cons_self _ _)
      have ht' : ∀ x ∈ t', (fun ch => !ch.isWhitespace) x = true := by
        intro x hx
        rw [htc] at hnws
        simp [hnws x (List.mem_cons_of_mem _ hx)]
      cases ts with
      | nil =>
        show pySplitWS (c :: t') = [c :: t']
        rw [pySplitWS_cons_nws hc, takeWhile_all_eq _ _ ht', dropWhile_all_eq _ _ ht',
          pySplitWS_nil]
      | cons t2 ts2 =>
        show pySplitWS (c :: (t' ++ ' ' :: joinSpace (t2 :: ts2))) = (c :: t') :: t2 :: ts2
        rw [pySplitWS_cons_nws hc]
        have h1 : (t' ++ ' ' :: joinSpace (t2 :: ts2)).takeWhile
            (fun ch => !ch.isWhitespace) = t' := by
          rw [takeWhile_append_all _ t' _ ht', List.takeWhile_cons]
          simp
        have h2 : (t' ++ ' ' :: joinSpace (t2 :: ts2)).dropWhile
            (fun ch => !ch.isWhitespace) = ' ' :: joinSpace (t2 :: ts2) := by
          rw [dropWhile_append_all _ t' _ ht', List.dropWhile_cons]
          simp
        rw [h1, h2, pySplitWS_cons_ws (by decide)]
        have := ih (fun x hx => h x (List.mem_cons_of_mem _ hx))
        rw [this]

theorem maskToken_invol (t : List Char) : maskToken (maskToken t) = maskToken t := by
  cases t <;> rfl

theorem maskNameChars_fix (s : String) :
    maskNameChars (maskNameChars s) = maskNameChars s := by
  have hts := pySplitWS_tokens s.data
  have hfil : (pySplitWS s.data).filter (fun t => !t.isEmpty) = pySplitWS s.data := by
    rw [List.filter_eq_self]
    intro t ht
    have := (hts t ht).1
    simp [List.isEmpty_iff, this]
  have hms : ∀ t ∈ (pySplitWS s.data).map maskToken,
      t ≠ [] ∧ ∀ c ∈ t, c.isWhitespace = false := by
    intro t ht
    obtain ⟨t0, ht0, he⟩ := List.mem_map.mp ht
    obtain ⟨hne, hnws⟩ := hts t0 ht0
    cases ht0c : t0 with
    | nil => exact absurd ht0c hne
    | cons c t0' =>
      rw [ht0c] at he
      rw [← he]
      refine ⟨by simp [maskToken], ?_⟩
      intro x hx
      simp only [maskToken, List.mem_cons] at hx
      rcases hx with hx | hx | hx | hx | hx
      · rw [hx]
        exact hnws c (by rw [ht0c]; exact List.mem_cons_self _ _)
      · rw [hx]; decide
      · rw [hx]; decide
      · rw [hx]; decide
      · cases hx
  have hfil2 : ((pySplitWS s.data).map maskToken).filter (fun t => !t.isEmpty) =
      (pySplitWS s.data).map maskToken := by
    rw [List.filter_eq_self]
    intro t ht
    have := (hms t ht).1
    simp [List.isEmpty_iff, this]
  have hout : maskNameChars s =
      String.mk (joinSpace ((pySplitWS s.data).map maskToken)) := by
    unfold maskNameChars
    rw [hfil]
  rw [hout]
  unfold maskNameChars
  have hdata : (String.mk (joinSpace ((pySplitWS s.data).map maskToken))).data =
      joinSpace ((pySplitWS s.data).map maskToken) := rfl
  rw [hdata, pySplitWS_joinSpace _ hms, hfil2, List.map_map]
  have hcg : (pySplitWS s.data).map (maskToken ∘ maskToken) =
      (pySplitWS s.data).map maskToken := by
    refine List.map_congr_left ?_
    intro t _
    exact maskToken_invol t
  rw [hcg]

theorem splitFirst_some {sep : Char} :
    ∀ {cs l d : List Char}, splitFirst sep cs = some (l, d) →
      sep ∉ l ∧ cs = l ++ sep :: d := by
  intro cs
  induction cs with
  | nil => intro l d h; simp [splitFirst] at h
  | cons c cs ih =>
    intro l d h
    by_cases hc : c = sep
    · rw [splitFirst, if_pos hc] at h
      simp only [Option.some.injEq, Prod.mk.injEq] at h
      obtain ⟨h1, h2⟩ := h
      subst h1
      subst h2
      subst hc
      exact ⟨by simp, rfl⟩
    · rw [splitFirst, if_neg hc] at h
      cases hsp : splitFirst sep cs with
      | none => rw [hsp] at h; cases h
      | some p =>
        rw [hsp] at h
        cases p with
        | mk pl pd =>
          simp only [Option.map_some', Option.some.injEq, Prod.mk.injEq] at h
          obtain ⟨h1, h2⟩ := h
          obtain ⟨hns, heq⟩ := ih hsp
          subst h2
          rw [← h1]
          constructor
          · intro hmem
            rcases List.mem_cons.mp hmem with hmem | hmem
            · exact hc hmem.symm
            · exact hns hmem
          · rw [heq]
            rfl

theorem maskEmailChars_fix (s : String) :
    maskEmailChars (maskEmailChars s) = maskEmailChars s := by
  unfold maskEmailChars
  cases hsp : splitFirst '@' s.data with
  | none =>
    show maskEmailChars s = s
    unfold maskEmailChars
    rw [hsp]
  | some p =>
    cases p with
    | mk l d =>
      cases l with
      | nil =>
        show maskEmailChars s = s
        unfold maskEmailChars
        rw [hsp]
      | cons lc l' =>
        obtain ⟨hns, _⟩ := splitFirst_some hsp
        have hlc : ¬ lc = '@' := by
          intro he
          exact hns (he ▸ List.mem_cons_self _ _)
        show maskEmailChars (String.mk (lc :: '*' :: '*' :: '*' :: '@' :: d)) = _
        unfold maskEmailChars
        have hdata : (String.mk (lc :: '*' :: '*' :: '*' :: '@' :: d)).data =
            lc :: '*' :: '*' :: '*' :: '@' :: d := rfl
        rw [hdata]
        have hsp2 : splitFirst '@' (lc :: '*' :: '*' :: '*' :: '@' :: d) =
            some ([lc, '*', '*', '*'], d) := by
          rw [splitFirst, if_neg hlc]
          rw [splitFirst, if_neg (by decide)]
          rw [splitFirst, if_neg (by decide)]
          rw [splitFirst, if_neg (by decide)]
          rw [splitFirst, if_pos rfl]
          rfl
        rw [hsp2]

theorem phonePatMatch_star (rest : List Char) :
    phonePatMatch ('*' :: '*' :: '*' :: '-' :: '*' :: '*' :: '*' :: '-' :: rest) = false := by
  rcases rest with _ | ⟨a, _ | ⟨b, _ | ⟨c, _ | ⟨d, t⟩⟩⟩⟩
  · rfl
  · rfl
  · rfl
  · rfl
  · simp [phonePatMatch]

theorem maskPhoneChars_fix (s : String) :
    maskPhoneChars (maskPhoneChars s) = maskPhoneChars s := by
  by_cases h : phonePatMatch s.data = true
  · have h1 : maskPhoneChars s = String.mk ('*' :: '*' :: '*' :: '-' :: '*' :: '*' :: '*' ::
        '-' :: (splitAll '-' s.data).getD 2 []) := by
      unfold maskPhoneChars
      rw [if_pos h]
    rw [h1]
    unfold maskPhoneChars
    have hdata : (String.mk ('*' :: '*' :: '*' :: '-' :: '*' :: '*' :: '*' ::
        '-' :: (splitAll '-' s.data).getD 2 [])).data =
        '*' :: '*' :: '*' :: '-' :: '*' :: '*' :: '*' ::
          '-' :: (splitAll '-' s.data).getD 2 [] := rfl
    rw [hdata, phonePatMatch_star]
    simp
  · have h1 : maskPhoneChars s = s := by
      unfold maskPhoneChars
      rw [if_neg h]
    rw [h1, h1]

theorem dobPat_masked_false {t : List Char} (ht : t.length ≤ 4) :
    dobPatMatch (t ++ '-' :: '*' :: '*' :: '-' :: '*' :: '*' :: []) = false := by
  rcases t with _ | ⟨a, _ | ⟨b, _ | ⟨c, _ | ⟨d, _ | ⟨e, t⟩⟩⟩⟩⟩
  · rfl
  · rfl
  · rfl
  · rfl
  · simp [dobPatMatch]
  · exfalso
    simp only [List.length_cons] at ht
    omega

theorem maskDobChars_fix (s : String) :
    maskDobChars (maskDobChars s) = maskDobChars s := by
  by_cases h : dobPatMatch s.data = true
  · have h1 : maskDobChars s =
        String.mk (s.data.take 4 ++ '-' :: '*' :: '*' :: '-' :: '*' :: '*' :: []) := by
      unfold maskDobChars
      rw [if_pos h]
    rw [h1]
    unfold maskDobChars
    have hdata : (String.mk (s.data.take 4 ++
        '-' :: '*' :: '*' :: '-' :: '*' :: '*' :: [])).data =
        s.data.take 4 ++ '-' :: '*' :: '*' :: '-' :: '*' :: '*' :: [] := rfl
    rw [hdata, dobPat_masked_false (by rw [List.length_take]; exact min_le_left _ _)]
    simp
  · have h1 : maskDobChars s = s := by
      unfold maskDobChars
      rw [if_neg h]
    rw [h1, h1]

theorem mask_name_cases (c : Cell) :
    mask_name c = c ∨ mask_name c = Cell.str (maskNameChars (cellPyStr c)) := by
  cases c with
  | null => left; rfl
  | str s =>
    simp only [mask_name]
    split
    · left; rfl
    · right; rfl
  | int i =>
    simp only [mask_name]
    split
    · left; rfl
    · right; rfl
  | float q =>
    simp only [mask_name]
    split
    · left; rfl
    · right; rfl
  | date d =>
    simp only [mask_name]
    split
    · left; rfl
    · right; rfl

theorem mask_name_idem (c : Cell) : mask_name (mask_name c) = mask_name c := by
  rcases mask_name_cases c with h | h
  · rw [h]
    exact h
  · rcases mask_name_cases (mask_name c) with h2 | h2
    · exact h2
    · rw [h] at h2 ⊢
      rw [h2]
      exact congrArg Cell.str (maskNameChars_fix (cellPyStr c))

theorem mask_email_cases (c : Cell) :
    mask_email c = c ∨ mask_email c = Cell.str (maskEmailChars (cellPyStr c)) := by
  cases c with
  | null => left; rfl
  | str s =>
    simp only [mask_email]
    split
    · left; rfl
    · right; rfl
  | int i =>
    simp only [mask_email]
    split
    · left; rfl
    · right; rfl
  | float q =>
    simp only [mask_email]
    split
    · left; rfl
    · right; rfl
  | date d =>
    simp only [mask_email]
    split
    · left; rfl
    · right; rfl

theorem mask_email_idem (c : Cell) : mask_email (mask_email c) = mask_email c := by
  rcases mask_email_cases c with h | h
  · rw [h]
    exact h
  · rcases mask_email_cases (mask_email c) with h2 | h2
    · exact h2
    · rw [h] at h2 ⊢
      rw [h2]
      exact congrArg Cell.str (maskEmailChars_fix (cellPyStr c))

theorem mask_phone_cases (c : Cell) :
    mask_phone c = c ∨ mask_phone c = Cell.str (maskPhoneChars (cellPyStr c)) := by
  cases c with
  | null => left; rfl
  | str s =>
    simp only [mask_phone]
    split
    · left; rfl
    · right; rfl
  | int i =>
    simp only [mask_phone]
    split
    · left; rfl
    · right; rfl
  | float q =>
    simp only [mask_phone]
    split
    · left; rfl
    · right; rfl
  | date d =>
    simp only [mask_phone]
    split
    · left; rfl
    · right; rfl

theorem mask_phone_idem (c : Cell) : mask_phone (mask_phone c) = mask_phone c := by
  rcases mask_phone_cases c with h | h
  · rw [h]
    exact h
  · rcases mask_phone_cases (mask_phone c) with h2 | h2
    · exact h2
    · rw [h] at h2 ⊢
      rw [h2]
      exact congrArg Cell.str (maskPhoneChars_fix (cellPyStr c))

theorem mask_dob_idem (c : Cell) : mask_dob (mask_dob c) = mask_dob c := by
  cases c with
  | null => rfl
  | str s => exact congrArg Cell.str (maskDobChars_fix s)
  | int i => exact congrArg Cell.str (maskDobChars_fix _)
  | float q => exact congrArg Cell.str (maskDobChars_fix _)
  | date d => exact congrArg Cell.str (maskDobChars_fix _)

theorem mask_address_cases (c : Cell) :
    mask_address c = c ∨ mask_address c = Cell.str "[MASKED ADDRESS]" := by
  cases c with
  | null => left; rfl
  | str s =>
    simp only [mask_address]
    split
    · left; rfl
    · right; rfl
  | int i =>
    simp only [mask_address]
    split
    · left; rfl
    · right; rfl
  | float q =>
    simp only [mask_address]
    split
    · left; rfl
    · right; rfl
  | date d =>
    simp only [mask_address]
    split
    · left; rfl
    · right; rfl

theorem mask_address_idem (c : Cell) : mask_address (mask_address c) = mask_address c := by
  rcases mask_address_cases c with h | h
  · rw [h]
    exact h
  · rw [h]
    decide

theorem specNormalizedPhone_shape {s : String} (h : specNormalizedPhone s = true) :
    ∃ d1 d2 d3 d4 d5 d6 d7 d8 d9 d10 : Char,
      s.data = [d1, d2, d3, '-', d4, d5, d6, '-', d7, d8, d9, d10] ∧
      d1.isDigit = true ∧ d2.isDigit = true ∧ d3.isDigit = true ∧ d4.isDigit = true ∧
      d5.isDigit = true ∧ d6.isDigit = true ∧ d7.isDigit = true ∧ d8.isDigit = true ∧
      d9.isDigit = true ∧ d10.isDigit = true := by
  unfold specNormalizedPhone at h
  split at h
  next d1 d2 d3 d4 d5 d6 d7 d8 d9 d10 heq =>
    simp only [Bool.and_eq_true] at h
    exact ⟨d1, d2, d3, d4, d5, d6, d7, d8, d9, d10, heq,
      h.1.1.1.1.1.1.1.1.1, h.1.1.1.1.1.1.1.1.2, h.1.1.1.1.1.1.1.2, h.1.1.1.1.1.1.2,
      h.1.1.1.1.1.2, h.1.1.1.1.2, h.1.1.1.2, h.1.1.2, h.1.2, h.2⟩
  next => cases h

theorem splitAll_norm {d1 d2 d3 d4 d5 d6 d7 d8 d9 d10 : Char}
    (h1 : d1 ≠ '-') (h2 : d2 ≠ '-') (h3 : d3 ≠ '-') (h4 : d4 ≠ '-') (h5 : d5 ≠ '-')
    (h6 : d6 ≠ '-') (h7 : d7 ≠ '-') (h8 : d8 ≠ '-') (h9 : d9 ≠ '-') (h10 : d10 ≠ '-') :
    splitAll '-' [d1, d2, d3, '-', d4, d5, d6, '-', d7, d8, d9, d10] =
      [[d1, d2, d3], [d4, d5, d6], [d7, d8, d9, d10]] := by
  unfold splitAll
  simp [splitAllAux, h1, h2, h3, h4, h5, h6, h7, h8, h9, h10]

theorem phonePatMatch_of_norm {d1 d2 d3 d4 d5 d6 d7 d8 d9 d10 : Char}
    (h1 : d1.isDigit = true) (h2 : d2.isDigit = true) (h3 : d3.isDigit = true)
    (h4 : d4.isDigit = true) (h5 : d5.isDigit = true) (h6 : d6.isDigit = true)
    (h7 : d7.isDigit = true) (h8 : d8.isDigit = true) (h9 : d9.isDigit = true)
    (h10 : d10.isDigit = true) :
    phonePatMatch [d1, d2, d3, '-', d4, d5, d6, '-', d7, d8, d9, d10] = true := by
  simp [phonePatMatch, h1, h2, h3, h4, h5, h6, h7, h8, h9, h10]

/-- The fixed processing date used by the concrete witness inputs. -/
def procDate : Date := ⟨2024, 1, 1⟩

/-- A raw input row that survives cleaning unchanged up to normalization. -/
def sampleRow : RawRow :=
  ⟨Cell.str "1", Cell.str "John", Cell.str "Doe", Cell.str "a@b.co",
   Cell.str "5551234567", Cell.str "1985-03-15", Cell.str "123 Main Street",
   Cell.str "100", Cell.str "active", Cell.str "2020-01-05"⟩

/-- The cleaned form of `sampleRow`. -/
def sampleRowClean : RawRow :=
  ⟨Cell.int 1, Cell.str "John", Cell.str "Doe", Cell.str "a@b.co",
   Cell.str "555-123-4567", Cell.date ⟨1985, 3, 15⟩, Cell.str "123 Main Street",
   Cell.int 100, Cell.str "active", Cell.date ⟨2020, 1, 5⟩⟩

/-- A valid raw row with customer id 42, used to exhibit duplicates. -/
def sampleDup : RawRow :=
  { sampleRow with customer_id := Cell.str "42" }

/-- The cleaned form of `sampleDup`. -/
def sampleDupClean : RawRow :=
  { sampleRowClean with customer_id := Cell.int 42 }

/-- A raw row that passes the delete gate but fails re-validation
(negative income). -/
def sampleFlagged : RawRow :=
  { sampleRow with customer_id := Cell.str "2", income := Cell.str "-50" }

/-- A raw row with id 42 that fails field validation (negative income). -/
def sampleBadDup : RawRow :=
  { sampleDup with income := Cell.str "-50" }

/-- The cleaner result on `[sampleRow, sampleFlagged]`. -/
def flaggedResult : CleanResult :=
  ⟨2, 0, 1, 1, [⟨1, Cell.int 2, "income: Income cannot be negative"⟩]⟩

/-- A raw row whose customer id is the fractional literal "3.7": it
survives the delete gate (`pd.to_numeric` parses it), the cleaner's
`int()` truncates the converted copy to 3 so re-validation accepts, yet
the row is written with its unconverted fractional id. -/
def sampleFracRow : RawRow :=
  { sampleRow with customer_id := Cell.str "3.7" }

/-- The cleaned form of `sampleFracRow`: the fractional id survives
unconverted in the output. -/
def sampleFracClean : RawRow :=
  { sampleRowClean with customer_id := Cell.float (mkRat 37 10) }

deriving instance DecidableEq for Except

set_option maxRecDepth 10000

/-- Claim C1, counterexample: the claimed invariant fails in two independent
ways.  (a) Two identical valid rows with customer id 42 clean
successfully, the written cleaned table carries the id twice (so its
customer ids are NOT pairwise distinct), and the standalone validator on
that output reports one failed row, verdict fail — `clean_dataset` never
checks uniqueness.  (b) A single row with the fractional customer id
"3.7" cleans successfully with pairwise-distinct gate ids — `int()`
truncates the converted copy to 3, which re-validates — but the row is
written with its unconverted fractional id, which the standalone
validator's pydantic int coercion rejects: one failed row, verdict
fail. -/
theorem clean_duplicate_survives_counterexample :
    (clean_dataset procDate [sampleDup, sampleDup] =
        Except.ok ([sampleDupClean, sampleDupClean], ⟨2, 0, 2, 0, []⟩) ∧
      ¬ (([sampleDupClean, sampleDupClean]).map (fun r => r.customer_id)).Nodup ∧
      (validate_dataset [sampleDupClean, sampleDupClean]).failed_count = 1 ∧
      (validate_dataset [sampleDupClean, sampleDupClean]).passed = false) ∧
    (clean_dataset procDate [sampleFracRow] =
        Except.ok ([sampleFracClean], ⟨1, 0, 1, 0, []⟩) ∧
      ((gateRows [sampleFracRow]).map (fun p => p.2.customer_id)).Nodup ∧
      isIntegralNumCell sampleFracClean.customer_id = false ∧
      (validate_dataset [sampleFracClean]).failed_count = 1 ∧
      (validate_dataset [sampleFracClean]).passed = false) :=
  ⟨⟨by decide, by decide, by decide, by decide⟩,
   ⟨by decide, by decide, by decide, by decide, by decide⟩⟩

/-- Claim C1, amended: when `clean_dataset` succeeds AND the rows surviving the
customer-id delete gate carry pairwise distinct customer ids, all of them
integer-valued, the cleaned table's ids are pairwise distinct and a
standalone `validate_dataset` run on the cleaned output reports zero
failed rows with table verdict pass. -/
theorem clean_output_validates_of_distinct_ids (now : Date) (rows : List RawRow)
    (out : List RawRow) (res : CleanResult)
    (hok : clean_dataset now rows = Except.ok (out, res))
    (hnd : ((gateRows rows).map (fun p => p.2.customer_id)).Nodup)
    (hint : ∀ p ∈ gateRows rows, isIntegralNumCell p.2.customer_id = true) :
    (out.map (fun r => r.customer_id)).Nodup ∧
    (validate_dataset out).failed_count = 0 ∧
    (validate_dataset out).passed = true := by
  obtain ⟨ho, _, _⟩ := clean_ok_inv hok
  subst ho
  refine ⟨cleanedTable_ids_nodup now hnd, ?_, ?_⟩
  · show (validateRowsAux [] 0 ((cleanedTable now rows).map trimRow)).length = 0
    rw [validate_clean_empty now rows hnd hint]
    rfl
  · show (validateRowsAux [] 0 ((cleanedTable now rows).map trimRow)).isEmpty = true
    rw [validate_clean_empty now rows hnd hint]
    rfl

/-- Claim C1, witness: the amended theorem applied to a concrete one-row input. -/
theorem clean_output_validates_witness :
    clean_dataset procDate [sampleRow] = Except.ok ([sampleRowClean], ⟨1, 0, 1, 0, []⟩) ∧
    ((gateRows [sampleRow]).map (fun p => p.2.customer_id)).Nodup ∧
    (validate_dataset [sampleRowClean]).passed = true :=
  ⟨by decide, by decide,
    (clean_output_validates_of_distinct_ids procDate [sampleRow] [sampleRowClean]
      ⟨1, 0, 1, 0, []⟩ (by decide) (by decide) (by decide)).2.2⟩

/-- Claim C2: for every run of `clean_dataset` that returns a result record,
`deleted_count + cleaned_count + flagged_count = initial_count`. -/
theorem clean_counts_roundtrip (now : Date) (rows : List RawRow)
    (out : List RawRow) (res : CleanResult)
    (hok : clean_dataset now rows = Except.ok (out, res)) :
    res.deleted_count + res.cleaned_count + res.flagged_count = res.initial_count := by
  obtain ⟨_, hres, _⟩ := clean_ok_inv hok
  subst hres
  have h1 := clean_partition now rows
  have h2 := gateRows_length_le rows
  show rows.length - (gateRows rows).length + (cleanedTable now rows).length +
      (flaggedRecs now rows).length = rows.length
  omega

/-- Claim C2, witness: the count identity on a concrete run with one flagged row. -/
theorem clean_counts_roundtrip_witness :
    clean_dataset procDate [sampleRow, sampleFlagged] =
      Except.ok ([sampleRowClean], flaggedResult) ∧
    flaggedResult.deleted_count + flaggedResult.cleaned_count +
      flaggedResult.flagged_count = flaggedResult.initial_count :=
  ⟨by decide,
    clean_counts_roundtrip procDate [sampleRow, sampleFlagged] [sampleRowClean]
      flaggedResult (by decide)⟩

/-- Claim C3, counterexample: on `[sampleRow, sampleFlagged]` one row is flagged
by re-validation, so the final accepted count is 1 out of 2, yet
`deleted_count` is 0 and not `initial_count - cleaned_count = 1`: flagged
rows do NOT count toward `deleted_count`. -/
theorem deleted_count_counterexample :
    clean_dataset procDate [sampleRow, sampleFlagged] =
      Except.ok ([sampleRowClean], flaggedResult) ∧
    flaggedResult.deleted_count = 0 ∧
    flaggedResult.initial_count - flaggedResult.cleaned_count = 1 ∧
    flaggedResult.deleted_count ≠
      flaggedResult.initial_count - flaggedResult.cleaned_count :=
  ⟨by decide, by decide, by decide, by decide⟩

/-- Claim C3, amended: `deleted_count` equals the initial row count minus the
count of rows surviving the customer-id delete gate, i.e.
`initial_count - (cleaned_count + flagged_count)`: only delete-gate
removals count toward it, re-validation flags are counted separately in
`flagged_count`. -/
theorem deleted_count_is_gate_only (now : Date) (rows : List RawRow)
    (out : List RawRow) (res : CleanResult)
    (hok : clean_dataset now rows = Except.ok (out, res)) :
    res.deleted_count = res.initial_count - (res.cleaned_count + res.flagged_count) := by
  obtain ⟨_, hres, _⟩ := clean_ok_inv hok
  subst hres
  have h1 := clean_partition now rows
  have h2 := gateRows_length_le rows
  show rows.length - (gateRows rows).length =
    rows.length - ((cleanedTable now rows).length + (flaggedRecs now rows).length)
  omega

/-- Claim C3, witness: the amended identity on the same concrete run. -/
theorem deleted_count_is_gate_only_witness :
    clean_dataset procDate [sampleRow, sampleFlagged] =
      Except.ok ([sampleRowClean], flaggedResult) ∧
    flaggedResult.deleted_count =
      flaggedResult.initial_count -
        (flaggedResult.cleaned_count + flaggedResult.flagged_count) :=
  ⟨by decide,
    deleted_count_is_gate_only procDate [sampleRow, sampleFlagged] [sampleRowClean]
      flaggedResult (by decide)⟩

/-- Claim C8: if the re-validation pass accepts zero rows, `clean_dataset`
raises `ValueError("All rows failed validation")` instead of returning a
result record; the error branch is taken before the output write, so no
cleaned table is produced (the error value carries no table). -/
theorem clean_empty_raises (now : Date) (rows : List RawRow)
    (h : acceptedPairs now rows = []) :
    clean_dataset now rows = Except.error "All rows failed validation" := by
  unfold clean_dataset
  have hz : (cleanedTable now rows).length = 0 := by
    unfold cleanedTable
    rw [h]
    rfl
  rw [if_pos hz]

/-- Claim C8, witness: a one-row input whose row is flagged leaves zero accepted
rows and the clean run errors out. -/
theorem clean_empty_raises_witness :
    acceptedPairs procDate [sampleFlagged] = [] ∧
    clean_dataset procDate [sampleFlagged] = Except.error "All rows failed validation" :=
  ⟨by decide, clean_empty_raises procDate [sampleFlagged] (by decide)⟩

/-- Claim C5: `validate_dataset` iterates rows in input order with a seen-id
set: a row whose customer id repeats that of ANY earlier row is recorded
as a duplicate-key failure (column "unknown", error "Duplicate
customer_id") even if it satisfies every field rule, while a row whose id
has no earlier occurrence never fails the uniqueness check — any failure
record it produces comes from field validation. -/
theorem validate_first_vs_later (rows : List RawRow) (j : Nat) (hj : j < rows.length) :
    ((∃ i, i < j ∧ (vRowAt rows i).customer_id = (vRowAt rows j).customer_id) →
      (⟨j, (vRowAt rows j).customer_id, "unknown", "Duplicate customer_id"⟩ : FailRec) ∈
        (validate_dataset rows).failed_rows) ∧
    ((∀ i, i < j → (vRowAt rows i).customer_id ≠ (vRowAt rows j).customer_id) →
      ∀ f ∈ (validate_dataset rows).failed_rows, f.row_index = j →
        ∃ cm : String × String,
          validateCustomerCells (vRowAt rows j) = Except.error cm ∧
          f = ⟨j, (vRowAt rows j).customer_id, cm.1, cm.2⟩) := by
  have hlen : j < (rows.map trimRow).length := by simpa using hj
  constructor
  · rintro ⟨i, hij, heq⟩
    show _ ∈ validateRowsAux [] 0 (rows.map trimRow)
    have := validateRowsAux_dup_mem (rows.map trimRow) [] 0 j hlen
      (Or.inr ⟨i, hij, heq⟩)
    simpa [vRowAt] using this
  · intro hfirst f hf hidx
    have hf' : f ∈ validateRowsAux [] 0 (rows.map trimRow) := hf
    have := validateRowsAux_first_occ (rows.map trimRow) [] 0 j hlen (by simp)
      (fun k hk => hfirst k hk) f hf' (by simpa using hidx)
    obtain ⟨c, m, h1, h2⟩ := this
    exact ⟨(c, m), h1, by simpa [vRowAt] using h2⟩

/-- Claim C5, witness: two rows sharing customer id 42; the second occurrence is
reported as the duplicate-key failure. -/
theorem validate_first_vs_later_witness :
    (⟨1, Cell.str "42", "unknown", "Duplicate customer_id"⟩ : FailRec) ∈
      (validate_dataset [sampleDup, sampleDup]).failed_rows :=
  (validate_first_vs_later [sampleDup, sampleDup] 1 (by decide)).1
    ⟨0, by decide, by decide⟩

/-- Claim C9: the uniqueness check runs before the field rules and every row's
customer id enters the seen set even when the row fails field validation;
a later row repeating the id of an earlier row that itself FAILED
validation is still rejected with the duplicate error carrying column
"unknown" (the plain ValueError has no field location), and that
duplicate record is the only failure record for that row index — its
field rules are never evaluated into a record. -/
theorem validate_seen_includes_failed (rows : List RawRow) (i j : Nat)
    (hij : i < j) (hj : j < rows.length) (e : String × String)
    (hfail : validateCustomerCells (vRowAt rows i) = Except.error e)
    (heq : (vRowAt rows i).customer_id = (vRowAt rows j).customer_id) :
    (⟨j, (vRowAt rows j).customer_id, "unknown", "Duplicate customer_id"⟩ : FailRec) ∈
      (validate_dataset rows).failed_rows ∧
    ∀ f ∈ (validate_dataset rows).failed_rows, f.row_index = j →
      f = ⟨j, (vRowAt rows j).customer_id, "unknown", "Duplicate customer_id"⟩ := by
  have hlen : j < (rows.map trimRow).length := by simpa using hj
  constructor
  · show _ ∈ validateRowsAux [] 0 (rows.map trimRow)
    have := validateRowsAux_dup_mem (rows.map trimRow) [] 0 j hlen
      (Or.inr ⟨i, hij, heq⟩)
    simpa [vRowAt] using this
  · intro f hf hidx
    have hf' : f ∈ validateRowsAux [] 0 (rows.map trimRow) := hf
    have := validateRowsAux_dup_unique (rows.map trimRow) [] 0 j hlen
      (Or.inr ⟨i, hij, heq⟩) f hf' (by simpa using hidx)
    simpa [vRowAt] using this

/-- Claim C9, witness: row 0 (id 42, negative income) fails field validation,
row 1 repeats id 42 and is rejected as a duplicate with column "unknown";
no other failure record exists for row index 1. -/
theorem validate_seen_includes_failed_witness :
    validateCustomerCells (vRowAt [sampleBadDup, sampleDup] 0) =
      Except.error ("income", "Income cannot be negative") ∧
    (⟨1, Cell.str "42", "unknown", "Duplicate customer_id"⟩ : FailRec) ∈
      (validate_dataset [sampleBadDup, sampleDup]).failed_rows ∧
    ∀ f ∈ (validate_dataset [sampleBadDup, sampleDup]).failed_rows, f.row_index = 1 →
      f = ⟨1, Cell.str "42", "unknown", "Duplicate customer_id"⟩ := by
  have h := validate_seen_includes_failed [sampleBadDup, sampleDup] 0 1 (by decide)
    (by decide) ("income", "Income cannot be negative") (by decide) (by decide)
  exact ⟨by decide, h.1, h.2⟩

theorem detect_presence_counts (rows : List RawRow)
    (h : ∀ r ∈ rows, r.address ≠ Cell.null ∧ r.date_of_birth ≠ Cell.null) :
    (detect_pii rows).addresses_found = rows.length ∧
    (detect_pii rows).dob_found = rows.length := by
  constructor
  · have hf : rows.filter (fun r => r.address ≠ Cell.null) = rows := by
      rw [List.filter_eq_self]
      intro a ha
      simpa using (h a ha).1
    show (rows.filter (fun r => r.address ≠ Cell.null)).length = rows.length
    rw [hf]
  · have hf : rows.filter (fun r => r.date_of_birth ≠ Cell.null) = rows := by
      rw [List.filter_eq_self]
      intro a ha
      simpa using (h a ha).2
    show (rows.filter (fun r => r.date_of_birth ≠ Cell.null)).length = rows.length
    rw [hf]

/-- Claim C10: on any table whose address and date_of_birth columns have no
null cells, `detect_pii` reports `addresses_found` and `dob_found` both
equal to the total row count (the presence-based categories count
placeholders and real values alike); and every output of `clean_dataset`
is such a table, so on cleaned data both categories flag every row. -/
theorem detect_presence_flags_all (rows : List RawRow)
    (h : ∀ r ∈ rows, r.address ≠ Cell.null ∧ r.date_of_birth ≠ Cell.null) :
    ((detect_pii rows).addresses_found = rows.length ∧
      (detect_pii rows).dob_found = rows.length) ∧
    ∀ (now : Date) (input out : List RawRow) (res : CleanResult),
      clean_dataset now input = Except.ok (out, res) →
      (detect_pii out).addresses_found = out.length ∧
      (detect_pii out).dob_found = out.length := by
  refine ⟨detect_presence_counts rows h, ?_⟩
  intro now input out res hok
  obtain ⟨ho, _, _⟩ := clean_ok_inv hok
  subst ho
  exact detect_presence_counts _ (cleaned_no_null_addr_dob now input)

/-- Claim C10, witness: the presence counts on a concrete cleaned one-row table. -/
theorem detect_presence_flags_all_witness :
    (∀ r ∈ [sampleRowClean], r.address ≠ Cell.null ∧ r.date_of_birth ≠ Cell.null) ∧
    (detect_pii [sampleRowClean]).addresses_found = 1 ∧
    (detect_pii [sampleRowClean]).dob_found = 1 := by
  refine ⟨by decide, ?_, ?_⟩
  · exact ((detect_presence_flags_all [sampleRowClean] (by decide)).1).1
  · exact ((detect_presence_flags_all [sampleRowClean] (by decide)).1).2

/-- Claim C6: the cleaner's phone transform (`normalize_phone` followed by the
phone FILL, exactly the transform `repairRow` applies to the phone
column) strips all non-digit characters of `str(cell)`; when exactly ten
digits remain the cleaned value regroups them as `DDD-DDD-DDDD`, and for
any other digit count (including a null cell) the value becomes null and
is filled with the placeholder "000-000-0000"; in particular the input
"5551234567" yields "555-123-4567". -/
theorem phone_normalization_spec (c : Cell) :
    (∀ (now : Date) (r : RawRow), (repairRow now r).phone = cleanPhoneCell r.phone) ∧
    (c = Cell.null → cleanPhoneCell c = Cell.str "000-000-0000") ∧
    (c ≠ Cell.null →
      cleanPhoneCell c =
        if ((cellPyStr c).data.filter Char.isDigit).length = 10 then
          Cell.str (String.mk (((cellPyStr c).data.filter Char.isDigit).take 3 ++ '-' ::
            ((((cellPyStr c).data.filter Char.isDigit).drop 3).take 3) ++ '-' ::
            ((cellPyStr c).data.filter Char.isDigit).drop 6))
        else Cell.str "000-000-0000") ∧
    cleanPhoneCell (Cell.str "5551234567") = Cell.str "555-123-4567" := by
  refine ⟨fun now r => rfl, ?_, ?_, by decide⟩
  · intro h
    subst h
    decide
  · intro hn
    by_cases hl : ((cellPyStr c).data.filter Char.isDigit).length = 10
    · have hnp : normalize_phone c = Cell.str (String.mk
          (((cellPyStr c).data.filter Char.isDigit).take 3 ++ '-' ::
            ((((cellPyStr c).data.filter Char.isDigit).drop 3).take 3) ++ '-' ::
            ((cellPyStr c).data.filter Char.isDigit).drop 6)) := by
        unfold normalize_phone
        rw [if_neg hn, if_pos hl]
      simp [cleanPhoneCell, hnp, hl]
    · have hnp : normalize_phone c = Cell.null := by
        unfold normalize_phone
        rw [if_neg hn, if_neg hl]
      simp [cleanPhoneCell, hnp, hl]

/-- Claim C6, witness: the characterization applied at the concrete scenario
input "5551234567". -/
theorem phone_normalization_spec_witness :
    Cell.str "5551234567" ≠ Cell.null ∧
    cleanPhoneCell (Cell.str "5551234567") = Cell.str "555-123-4567" := by
  refine ⟨by decide, ?_⟩
  have h := (phone_normalization_spec (Cell.str "5551234567")).2.2.1 (by decide)
  exact h.trans (by decide)

theorem mask_phone_str_eq {s : String} (h1 : s ≠ "") (h2 : s ≠ "000-000-0000") :
    mask_phone (Cell.str s) = Cell.str (maskPhoneChars s) := by
  simp only [mask_phone]
  split
  next hguard =>
    exfalso
    simp [pyFalsy, h1, h2] at hguard
  next => rfl

/-- Claim C7, counterexample: "555-123-45678" is not in normalized
`DDD-DDD-DDDD` form (thirteen characters), yet `mask_phone` does not pass
it through unchanged — the unanchored `re.match` prefix test fires and
the value is masked to "***-***-45678". -/
theorem mask_phone_prefix_counterexample :
    specNormalizedPhone "555-123-45678" = false ∧
    mask_phone (Cell.str "555-123-45678") ≠ Cell.str "555-123-45678" ∧
    mask_phone (Cell.str "555-123-45678") = Cell.str "***-***-45678" :=
  ⟨by decide, by decide, by decide⟩

/-- Claim C7, amended: `mask_phone` masks exactly the values whose first
twelve characters match `DDD-DDD-DDDD` (a prefix match, not a whole-value
match), replacing them by `***-***-` followed by the third dash-separated
group; values that fail the prefix test pass through unchanged; the
placeholder "000-000-0000" passes through unchanged; and on a value
exactly in normalized form the result is `***-***-` followed by the last
four-digit group (characters 9-12). -/
theorem mask_phone_prefix_spec (s : String) :
    (phonePatMatch s.data = false → mask_phone (Cell.str s) = Cell.str s) ∧
    mask_phone (Cell.str "000-000-0000") = Cell.str "000-000-0000" ∧
    (s ≠ "000-000-0000" → phonePatMatch s.data = true →
      mask_phone (Cell.str s) = Cell.str (String.mk ('*' :: '*' :: '*' :: '-' :: '*' ::
        '*' :: '*' :: '-' :: (splitAll '-' s.data).getD 2 []))) ∧
    (s ≠ "000-000-0000" → specNormalizedPhone s = true →
      mask_phone (Cell.str s) = Cell.str (String.mk ('*' :: '*' :: '*' :: '-' :: '*' ::
        '*' :: '*' :: '-' :: s.data.drop 8))) := by
  have hmain : ∀ s' : String, s' ≠ "000-000-0000" → phonePatMatch s'.data = true →
      mask_phone (Cell.str s') = Cell.str (String.mk ('*' :: '*' :: '*' :: '-' :: '*' ::
        '*' :: '*' :: '-' :: (splitAll '-' s'.data).getD 2 [])) := by
    intro s' hpl hm
    have hne : s' ≠ "" := by
      intro he
      rw [he] at hm
      exact absurd hm (by decide)
    rw [mask_phone_str_eq hne hpl]
    refine congrArg Cell.str ?_
    unfold maskPhoneChars
    rw [if_pos hm]
  refine ⟨?_, by decide, hmain s, ?_⟩
  · intro h
    rcases mask_phone_cases (Cell.str s) with hc | hc
    · exact hc
    · rw [hc]
      refine congrArg Cell.str ?_
      show maskPhoneChars s = s
      unfold maskPhoneChars
      rw [if_neg (by simp [h])]
  · intro hpl hn
    obtain ⟨d1, d2, d3, d4, d5, d6, d7, d8, d9, d10, hdata, hd1, hd2, hd3, hd4, hd5,
      hd6, hd7, hd8, hd9, hd10⟩ := specNormalizedPhone_shape hn
    have hm : phonePatMatch s.data = true := by
      rw [hdata]
      exact phonePatMatch_of_norm hd1 hd2 hd3 hd4 hd5 hd6 hd7 hd8 hd9 hd10
    have hsplit : (splitAll '-' s.data).getD 2 [] = s.data.drop 8 := by
      rw [hdata, splitAll_norm (isDigit_ne_dash hd1) (isDigit_ne_dash hd2)
        (isDigit_ne_dash hd3) (isDigit_ne_dash hd4) (isDigit_ne_dash hd5)
        (isDigit_ne_dash hd6) (isDigit_ne_dash hd7) (isDigit_ne_dash hd8)
        (isDigit_ne_dash hd9) (isDigit_ne_dash hd10)]
      rfl
    rw [hmain s hpl hm, hsplit]

/-- Claim C7, witness: the amended characterization applied at the normalized
value "555-123-4567". -/
theorem mask_phone_prefix_spec_witness :
    specNormalizedPhone "555-123-4567" = true ∧
    mask_phone (Cell.str "555-123-4567") = Cell.str "***-***-4567" := by
  refine ⟨by decide, ?_⟩
  have h := (mask_phone_prefix_spec "555-123-4567").2.2.2 (by decide) (by decide)
  exact h.trans (by decide)

/-- Claim C4, counterexample: the claim's own exemplar fails — the masked name
"J*** D***" (the image of "John Doe" under `mask_name`) re-masks to the
SAME value, not a different one: each token keeps its first character, so
"J***" maps to "J***" again. -/
theorem mask_name_remask_counterexample :
    mask_name (Cell.str "John Doe") = Cell.str "J*** D***" ∧
    mask_name (Cell.str "J*** D***") = Cell.str "J*** D***" := by
  have hsplit1 : pySplitWS ("John Doe".data) = [['J', 'o', 'h', 'n'], ['D', 'o', 'e']] := by
    show pySplitWS ['J', 'o', 'h', 'n', ' ', 'D', 'o', 'e'] = _
    rw [pySplitWS_cons_nws (by decide)]
    have ht1 : List.takeWhile (fun ch => !ch.isWhitespace)
        ['o', 'h', 'n', ' ', 'D', 'o', 'e'] = ['o', 'h', 'n'] := by decide
    have hd1 : List.dropWhile (fun ch => !ch.isWhitespace)
        ['o', 'h', 'n', ' ', 'D', 'o', 'e'] = [' ', 'D', 'o', 'e'] := by decide
    rw [ht1, hd1, pySplitWS_cons_ws (by decide), pySplitWS_cons_nws (by decide)]
    have ht2 : List.takeWhile (fun ch => !ch.isWhitespace) ['o', 'e'] = ['o', 'e'] := by
      decide
    have hd2 : List.dropWhile (fun ch => !ch.isWhitespace) ['o', 'e'] = [] := by decide
    rw [ht2, hd2, pySplitWS_nil]
  have hsplit2 : pySplitWS ("J*** D***".data) =
      [['J', '*', '*', '*'], ['D', '*', '*', '*']] := by
    show pySplitWS ['J', '*', '*', '*', ' ', 'D', '*', '*', '*'] = _
    rw [pySplitWS_cons_nws (by decide)]
    have ht1 : List.takeWhile (fun ch => !ch.isWhitespace)
        ['*', '*', '*', ' ', 'D', '*', '*', '*'] = ['*', '*', '*'] := by decide
    have hd1 : List.dropWhile (fun ch => !ch.isWhitespace)
        ['*', '*', '*', ' ', 'D', '*', '*', '*'] = [' ', 'D', '*', '*', '*'] := by decide
    rw [ht1, hd1, pySplitWS_cons_ws (by decide), pySplitWS_cons_nws (by decide)]
    have ht2 : List.takeWhile (fun ch => !ch.isWhitespace) ['*', '*', '*'] =
        ['*', '*', '*'] := by decide
    have hd2 : List.dropWhile (fun ch => !ch.isWhitespace) ['*', '*', '*'] = [] := by
      decide
    rw [ht2, hd2, pySplitWS_nil]
  constructor
  · have hg : mask_name (Cell.str "John Doe") = Cell.str (maskNameChars "John Doe") := by
      simp only [mask_name]
      split
      next hguard => exact absurd hguard (by decide)
      next => rfl
    rw [hg]
    refine congrArg Cell.str ?_
    unfold maskNameChars
    rw [hsplit1]
    decide
  · have hg : mask_name (Cell.str "J*** D***") = Cell.str (maskNameChars "J*** D***") := by
      simp only [mask_name]
      split
      next hguard => exact absurd hguard (by decide)
      next => rfl
    rw [hg]
    refine congrArg Cell.str ?_
    unfold maskNameChars
    rw [hsplit2]
    decide

/-- Claim C4, amended: re-masking IS a no-op on every value, masked output
included — all five mask functions are idempotent: each passes its own
output (masked values, placeholders, and pass-through values alike)
through unchanged, because a masked token keeps the same first character,
a masked email keeps the same first local character and domain, and the
masked phone/date shapes no longer match the digit patterns. -/
theorem mask_functions_idempotent (c : Cell) :
    mask_name (mask_name c) = mask_name c ∧
    mask_email (mask_email c) = mask_email c ∧
    mask_phone (mask_phone c) = mask_phone c ∧
    mask_dob (mask_dob c) = mask_dob c ∧
    mask_address (mask_address c) = mask_address c :=
  ⟨mask_name_idem c, mask_email_idem c, mask_phone_idem c, mask_dob_idem c,
    mask_address_idem c⟩
